import Mathlib

set_option autoImplicit false

/-!
Shallow embedding of the `comptext-mcp-server` mobile-agent core
(`src/comptext_mcp/mobile_agent/`): the JSON values exchanged with the model,
the two-stage model-output parser, the UI-tree parsers and compact encoders,
the CompText action schema, and the Plan-Execute-Verify loop of
`MobileAgent.execute`.  Machine integers are modelled as `Int`/`Nat`,
Python floats as `ℚ`, fallible code as `Option`/`Except`.
-/

namespace CompTextMcp

/-- Left and right curly brace characters (written via code points). -/
def lbraceC : Char := Char.ofNat 123

def rbraceC : Char := Char.ofNat 125

/-- Fuel-indexed Euclidean gcd (kernel-reducible, unlike `Nat.gcd`). -/
def gcdF : Nat → Nat → Nat → Nat
  | 0, _, b => b
  | f + 1, a, b => if a = 0 then b else gcdF f (b % a) a

/-- An exact number value (Python `int`/`float` as decoded from JSON),
kept as a fraction in lowest terms with positive denominator, so that
structural equality coincides with numeric equality. -/
structure PyNum where
  num : Int
  den : Nat
deriving Repr, DecidableEq, Inhabited

/-- Build a `PyNum` in lowest terms from a numerator and a (positive)
denominator. -/
def pyNumMk (n : Int) (d : Nat) : PyNum :=
  if d = 0 then ⟨0, 1⟩
  else
    let g := gcdF (n.natAbs + d + 2) n.natAbs d
    ⟨n / (g : Int), d / g⟩

def PyNum.ofInt (n : Int) : PyNum := ⟨n, 1⟩

/-- A JSON value as produced by Python's `json.loads`.  Numbers are exact
(Python floats are binary fractions); `NaN`/`Infinity` literals are not
modelled.  Python `dict`s are association lists with unique keys, built with
later-duplicate-wins insertion exactly as `dict` literals behave. -/
inductive Json where
  | null : Json
  | bool (b : Bool) : Json
  | num (v : PyNum) : Json
  | str (s : String) : Json
  | arr (xs : List Json) : Json
  | obj (kvs : List (String × Json)) : Json
deriving Inhabited

mutual

/-- Structural equality test for `Json` (Python `==` on decoded values). -/
def Json.beq : Json → Json → Bool
  | .null, .null => true
  | .bool a, .bool b => a == b
  | .num a, .num b => a == b
  | .str a, .str b => a == b
  | .arr a, .arr b => Json.beqList a b
  | .obj a, .obj b => Json.beqObj a b
  | _, _ => false

def Json.beqList : List Json → List Json → Bool
  | [], [] => true
  | a :: as, b :: bs => Json.beq a b && Json.beqList as bs
  | _, _ => false

def Json.beqObj : List (String × Json) → List (String × Json) → Bool
  | [], [] => true
  | (k, v) :: as, (k', v') :: bs => k == k' && Json.beq v v' && Json.beqObj as bs
  | _, _ => false

end

mutual

theorem Json.eq_of_beq : ∀ {a b : Json}, Json.beq a b = true → a = b
  | .null, .null, _ => rfl
  | .bool _, .bool _, h => by
    simp only [Json.beq, beq_iff_eq] at h; rw [h]
  | .num _, .num _, h => by
    simp only [Json.beq, beq_iff_eq] at h; rw [h]
  | .str _, .str _, h => by
    simp only [Json.beq, beq_iff_eq] at h; rw [h]
  | .arr a, .arr b, h => by
    rw [Json.eqList_of_beq (a := a) (b := b) h]
  | .obj a, .obj b, h => by
    rw [Json.eqObj_of_beq (a := a) (b := b) h]

theorem Json.eqList_of_beq : ∀ {a b : List Json}, Json.beqList a b = true → a = b
  | [], [], _ => rfl
  | x :: xs, y :: ys, h => by
    simp only [Json.beqList, Bool.and_eq_true] at h
    rw [Json.eq_of_beq h.1, Json.eqList_of_beq (a := xs) (b := ys) h.2]

theorem Json.eqObj_of_beq :
    ∀ {a b : List (String × Json)}, Json.beqObj a b = true → a = b
  | [], [], _ => rfl
  | (k, v) :: xs, (k', v') :: ys, h => by
    simp only [Json.beqObj, Bool.and_eq_true, beq_iff_eq] at h
    rw [h.1.1, Json.eq_of_beq h.1.2, Json.eqObj_of_beq (a := xs) (b := ys) h.2]

end

mutual

theorem Json.beq_refl : ∀ (a : Json), Json.beq a a = true
  | .null => rfl
  | .bool _ => by simp [Json.beq]
  | .num _ => by simp [Json.beq]
  | .str _ => by simp [Json.beq]
  | .arr a => by simpa [Json.beq] using Json.beqList_refl a
  | .obj a => by simpa [Json.beq] using Json.beqObj_refl a

theorem Json.beqList_refl : ∀ (a : List Json), Json.beqList a a = true
  | [] => rfl
  | x :: xs => by
    simp only [Json.beqList, Bool.and_eq_true]
    exact ⟨Json.beq_refl x, Json.beqList_refl xs⟩

theorem Json.beqObj_refl : ∀ (a : List (String × Json)), Json.beqObj a a = true
  | [] => rfl
  | (k, v) :: xs => by
    simp only [Json.beqObj, Bool.and_eq_true, beq_self_eq_true, true_and]
    exact ⟨Json.beq_refl v, Json.beqObj_refl xs⟩

end

instance : DecidableEq Json := fun a b =>
  decidable_of_iff (Json.beq a b = true)
    ⟨Json.eq_of_beq, fun h => h ▸ Json.beq_refl a⟩

/-- Key lookup in a JSON object (Python `dict.get(k)` / `k in d`). -/
def objGet (kvs : List (String × Json)) (k : String) : Option Json :=
  match kvs with
  | [] => none
  | (k', v) :: rest => if k' = k then some v else objGet rest k

/-- Insertion with Python `dict` semantics: an existing key keeps its
position and takes the new value, a new key is appended. -/
def objInsert (kvs : List (String × Json)) (k : String) (v : Json) :
    List (String × Json) :=
  match kvs with
  | [] => [(k, v)]
  | (k', v') :: rest =>
      if k' = k then (k', v) :: rest else (k', v') :: objInsert rest k v

/-- Python truthiness of a JSON value (`if not action_data: ...`). -/
def jsonTruthy : Json → Bool
  | .null => false
  | .bool b => b
  | .num v => v.num ≠ 0
  | .str s => s ≠ ""
  | .arr xs => !xs.isEmpty
  | .obj kvs => !kvs.isEmpty

/-- JSON whitespace accepted between tokens by `json.loads`. -/
def jsonWs (c : Char) : Bool :=
  c = ' ' || c = '\t' || c = '\n' || c = '\r'

def jskipWs (cs : List Char) : List Char := cs.dropWhile jsonWs

/-- ASCII hex digit test (Python `json` `\uXXXX` escapes). -/
def hexDigit (c : Char) : Bool :=
  c.isDigit || ('a' ≤ c && c ≤ 'f') || ('A' ≤ c && c ≤ 'F')

def hexVal (c : Char) : Nat :=
  if c.isDigit then c.toNat - 48
  else if 'a' ≤ c then c.toNat - 87 else c.toNat - 55

/-- The character denoted by a single-character JSON string escape, if any. -/
def escChar (e : Char) : Option Char :=
  if e = '"' then some '"'
  else if e = '\\' then some '\\'
  else if e = '/' then some '/'
  else if e = 'b' then some (Char.ofNat 8)
  else if e = 'f' then some (Char.ofNat 12)
  else if e = 'n' then some '\n'
  else if e = 'r' then some '\r'
  else if e = 't' then some '\t'
  else none

/-- Decode one string body after the opening quote, returning the decoded
text and the remaining input.  Follows `json.loads` in strict mode: raw
control characters are rejected; `\uXXXX` escapes decode a single code
unit (surrogate-pair recombination is not modelled). -/
def jparseStrBody : List Char → Option (String × List Char)
  | [] => none
  | c :: rest =>
    if c = '"' then some ("", rest)
    else if c = '\\' then
      match rest with
      | [] => none
      | e :: rest' =>
        if e = 'u' then
          match rest' with
          | h1 :: h2 :: h3 :: h4 :: rest'' =>
            if hexDigit h1 && hexDigit h2 && hexDigit h3 && hexDigit h4 then
              match jparseStrBody rest'' with
              | none => none
              | some (s, r) =>
                let n := 4096 * hexVal h1 + 256 * hexVal h2 + 16 * hexVal h3 + hexVal h4
                some (String.mk (Char.ofNat n :: s.toList), r)
            else none
          | _ => none
        else
          match escChar e with
          | none => none
          | some d =>
            match jparseStrBody rest' with
            | none => none
            | some (s, r) => some (String.mk (d :: s.toList), r)
    else if c.toNat < 32 then none
    else
      match jparseStrBody rest with
      | none => none
      | some (s, r) => some (String.mk (c :: s.toList), r)

/-- Span of ASCII digits. -/
def digitSpan (cs : List Char) : List Char × List Char :=
  (cs.takeWhile Char.isDigit, cs.dropWhile Char.isDigit)

def digitsToNat (ds : List Char) : Nat :=
  ds.foldl (fun a c => 10 * a + (c.toNat - 48)) 0

/-- Decode a JSON number literal per the RFC grammar `json.loads` uses:
`-? (0 | [1-9][0-9]*) (\.[0-9]+)? ([eE][-+]?[0-9]+)?`.  A leading `0` is
never followed by more integer digits (the extra digits are left in the
remaining input, where the surrounding parser then fails, as in Python). -/
def jparseNum (cs : List Char) : Option (PyNum × List Char) :=
  let (neg, cs1) :=
    match cs with
    | '-' :: r => (true, r)
    | _ => (false, cs)
  match cs1 with
  | [] => none
  | d :: _ =>
    if !d.isDigit then none
    else
      let (intDs, cs2) := if d = '0' then (['0'], cs1.drop 1) else digitSpan cs1
      let (fracDs, cs3) :=
        match cs2 with
        | '.' :: r =>
          match digitSpan r with
          | ([], _) => (([] : List Char), cs2)
          | (ds, r') => (ds, r')
        | _ => ([], cs2)
      let (expNeg, expDs, cs4) :=
        match cs3 with
        | e :: r =>
          if e = 'e' || e = 'E' then
            let (sgn, r1) :=
              match r with
              | '+' :: r' => (false, r')
              | '-' :: r' => (true, r')
              | _ => (false, r)
            match digitSpan r1 with
            | ([], _) => (false, ([] : List Char), cs3)
            | (ds, r2) => (sgn, ds, r2)
          else (false, [], cs3)
        | [] => (false, [], cs3)
      -- value = ±(I·10^L + F) · 10^e / 10^L  with L the fraction length
      let l := fracDs.length
      let mantN : Nat := digitsToNat intDs * 10 ^ l + digitsToNat fracDs
      let eAbs : Nat := digitsToNat expDs
      let numN : Nat := if expNeg then mantN else mantN * 10 ^ eAbs
      let denN : Nat := if expNeg then 10 ^ l * 10 ^ eAbs else 10 ^ l
      let v := pyNumMk (if neg then -(numN : Int) else (numN : Int)) denN
      some (v, cs4)

/-- Parser task: a value, the members of a partly-read object, or the
elements of a partly-read array (with accumulator). -/
inductive PTask where
  | val (cs : List Char) : PTask
  | objBody (cs : List Char) (acc : List (String × Json)) : PTask
  | arrBody (cs : List Char) (acc : List Json) : PTask

/-- Recursive-descent JSON parser (fuel-indexed, single structural
recursion so that the kernel can evaluate it), mirroring `json.loads` on
the grammar subset exercised by this code base. -/
def jparseF : Nat → PTask → Option (Json × List Char)
  | 0, _ => none
  | fuel + 1, .val cs =>
    match cs with
    | [] => none
    | c :: rest =>
      if c = lbraceC then jparseF fuel (.objBody (jskipWs rest) [])
      else if c = '[' then jparseF fuel (.arrBody (jskipWs rest) [])
      else if c = '"' then (jparseStrBody rest).map fun (s, r) => (Json.str s, r)
      else if c = 't' then
        match rest with
        | 'r' :: 'u' :: 'e' :: r => some (Json.bool true, r)
        | _ => none
      else if c = 'f' then
        match rest with
        | 'a' :: 'l' :: 's' :: 'e' :: r => some (Json.bool false, r)
        | _ => none
      else if c = 'n' then
        match rest with
        | 'u' :: 'l' :: 'l' :: r => some (Json.null, r)
        | _ => none
      else (jparseNum cs).map fun (q, r) => (Json.num q, r)
  | fuel + 1, .objBody cs acc =>
    match cs with
    | [] => none
    | c :: rest =>
      if c == rbraceC && acc.isEmpty then some (Json.obj acc, rest)
      else if c = '"' then
        match jparseStrBody rest with
        | none => none
        | some (k, r1) =>
          match jskipWs r1 with
          | ':' :: r2 =>
            match jparseF fuel (.val (jskipWs r2)) with
            | none => none
            | some (v, r3) =>
              let acc' := objInsert acc k v
              match jskipWs r3 with
              | ',' :: r4 => jparseF fuel (.objBody (jskipWs r4) acc')
              | d :: r4 => if d = rbraceC then some (Json.obj acc', r4) else none
              | [] => none
          | _ => none
      else none
  | fuel + 1, .arrBody cs acc =>
    match cs with
    | [] => none
    | c :: rest =>
      if c == ']' && acc.isEmpty then some (Json.arr acc.reverse, rest)
      else
        match jparseF fuel (.val cs) with
        | none => none
        | some (v, r1) =>
          match jskipWs r1 with
          | ',' :: r2 => jparseF fuel (.arrBody (jskipWs r2) (v :: acc))
          | ']' :: r2 => some (Json.arr (v :: acc).reverse, r2)
          | _ => none

/-- `json.loads`: parse a complete document, allowing surrounding
whitespace, rejecting trailing data. -/
def jloads (s : String) : Option Json :=
  match jparseF (2 * s.length + 8) (.val (jskipWs s.toList)) with
  | some (v, rest) => if jskipWs rest = [] then some v else none
  | none => none

/-! ### Character-list string helpers

Python `str` methods re-implemented over `List Char` (the kernel cannot
evaluate the iterator-based core versions).  `lower` is the ASCII case map:
every string these functions are applied to in this development is ASCII. -/

def strLower (s : String) : String := String.mk (s.toList.map Char.toLower)

def strTake (s : String) (n : Nat) : String := String.mk (s.toList.take n)

/-- `needle in hay` for Python strings (substring containment). -/
def strContains (hay needle : String) : Bool :=
  hay.toList.tails.any fun t => needle.toList.isPrefixOf t

/-- `str.split(sep)` for a non-empty separator, as a fuelled `List Char`
scan (fuel bounds the input length, so the fallback arm is unreachable). -/
def splitOnAux (sep : List Char) : Nat → List Char → List Char → List (List Char)
  | 0, cs, acc => [acc.reverse ++ cs]
  | _ + 1, [], acc => [acc.reverse]
  | fuel + 1, c :: rest, acc =>
    if sep.isPrefixOf (c :: rest) then
      acc.reverse :: splitOnAux sep fuel (List.drop (sep.length - 1) rest) []
    else splitOnAux sep fuel rest (c :: acc)

def strSplitOn (s sep : String) : List String :=
  (splitOnAux sep.toList (s.length + 1) s.toList []).map String.mk

/-- Python `s.split(sep)[-1]` (total: `split` never returns an empty list). -/
def lastSplit (s sep : String) : String := (strSplitOn s sep).getLastD ""

/-- `str.replace(old, new)` for a non-empty pattern (leftmost,
non-overlapping), fuelled like `splitOnAux`. -/
def replaceAux (old new : List Char) : Nat → List Char → List Char
  | 0, cs => cs
  | _ + 1, [] => []
  | fuel + 1, c :: rest =>
    if old.isPrefixOf (c :: rest) then
      new ++ replaceAux old new fuel (List.drop (old.length - 1) rest)
    else c :: replaceAux old new fuel rest

def strReplace (s old new : String) : String :=
  String.mk (replaceAux old.toList new.toList (s.length + 1) s.toList)

/-- `str.strip(chars)`: remove leading and trailing characters drawn from
the given set. -/
def strStrip (s : String) (chars : List Char) : String :=
  String.mk ((((s.toList.dropWhile (chars.contains ·)).reverse).dropWhile
    (chars.contains ·)).reverse)

/-! ### The two regular-expression searches of `MobileAgent._parse_action` -/

/-- Collect the characters after a `{` up to the next brace; succeeds with
the collected run exactly when that brace is `}` (the regex
`\{[^{}]*\}` can match at this position). -/
def grabFlat : List Char → List Char → Option (List Char)
  | [], _ => none
  | c :: rest, acc =>
    if c = rbraceC then some acc.reverse
    else if c = lbraceC then none
    else grabFlat rest (c :: acc)

/-- `re.search(r"\{[^{}]*\}", content, re.DOTALL)`: the leftmost `{` whose
next brace character is `}`, returning the matched substring.  Scanning
every later start position after a failed attempt is equivalent to
continuing the scan, since the skipped positions contain no `{`. -/
def braceSearch : List Char → Option (List Char)
  | [] => none
  | c :: rest =>
    if c = lbraceC then
      match grabFlat rest [] with
      | some body => some (lbraceC :: (body ++ [rbraceC]))
      | none => braceSearch rest
    else braceSearch rest

/-- `\w` of Python `re` (ASCII approximation: the inputs exercised here are
ASCII). -/
def isWordCh (c : Char) : Bool := c.isAlphanum || c = '_'

/-- An optional leading double quote (`"?`): when present it is consumed,
since every continuation that rejects the quoted branch also rejects the
unquoted one (a `"` never matches the next mandatory token). -/
def dropQuote : List Char → List Char
  | '"' :: r => r
  | cs => cs

/-- Case-insensitive literal match of `action`. -/
def matchActionLit (cs : List Char) : Option (List Char) :=
  match cs with
  | a :: c :: t :: i :: o :: n :: rest =>
    if a.toLower = 'a' ∧ c.toLower = 'c' ∧ t.toLower = 't' ∧ i.toLower = 'i' ∧
        o.toLower = 'o' ∧ n.toLower = 'n' then some rest else none
  | _ => none

/-- Attempt the pattern `"?action"?\s*:\s*"?(\w+)"?` (flags `IGNORECASE`)
at one start position, returning the captured word. -/
def actionPatternAt (cs : List Char) : Option String :=
  match matchActionLit (dropQuote cs) with
  | none => none
  | some cs1 =>
    match (dropQuote cs1).dropWhile Char.isWhitespace with
    | ':' :: cs2 =>
      let cs3 := dropQuote (cs2.dropWhile Char.isWhitespace)
      match cs3.takeWhile isWordCh with
      | [] => none
      | w => some (String.mk w)
    | _ => none

/-- `re.search` with the fallback action pattern: leftmost matching start
position wins. -/
def actionSearch : List Char → Option String
  | [] => none
  | c :: rest =>
    match actionPatternAt (c :: rest) with
    | some w => some w
    | none => actionSearch rest

/-- `MobileAgent._parse_action`: strict stage extracts the first innermost
brace pair and decodes it with `json.loads`; on failure a lenient fallback
extracts an `action` word and synthesizes a dictionary. -/
def parseAction (content : String) : Option Json :=
  let strict : Option Json :=
    match braceSearch content.toList with
    | some sub => jloads (String.mk sub)
    | none => none
  match strict with
  | some v => some v
  | none =>
    match actionSearch content.toList with
    | some w =>
      some (Json.obj
        [("action", Json.str (strLower w)),
         ("thought", Json.str (strTake content 100)),
         ("params", Json.obj [])])
    | none => none

/-! ### XML documents

The result of `xml.etree.ElementTree.fromstring`: a tree of elements with a
tag and an attribute dictionary.  The element/forest pair is a mutual
inductive so that recursion over it is structural.  A failed parse
(`ET.ParseError`) is represented by `none` at the use sites. -/

mutual

inductive XmlElem where
  | mk (tag : String) (attrib : List (String × String)) (children : XmlForest) : XmlElem

inductive XmlForest where
  | nil : XmlForest
  | cons (e : XmlElem) (f : XmlForest) : XmlForest

end

def XmlElem.tag : XmlElem → String
  | .mk t _ _ => t

def XmlElem.attrib : XmlElem → List (String × String)
  | .mk _ a _ => a

def XmlElem.children : XmlElem → XmlForest
  | .mk _ _ c => c

/-- `element.attrib.get(key, default)` (XML attributes are unique). -/
def attrGet (attrib : List (String × String)) (k dflt : String) : String :=
  match attrib with
  | [] => dflt
  | (k', v) :: rest => if k' = k then v else attrGet rest k dflt

/-- `UITreeParser.BOUNDS_PATTERN.match(s)`: the anchored regex
`\[(\d+),(\d+)\]\[(\d+),(\d+)\]` (trailing input is ignored). -/
def boundsMatch (s : String) : Option (Int × Int × Int × Int) :=
  match s.toList with
  | '[' :: r1 =>
    match digitSpan r1 with
    | ([], _) => none
    | (d1, r2) =>
      match r2 with
      | ',' :: r3 =>
        match digitSpan r3 with
        | ([], _) => none
        | (d2, r4) =>
          match r4 with
          | ']' :: '[' :: r5 =>
            match digitSpan r5 with
            | ([], _) => none
            | (d3, r6) =>
              match r6 with
              | ',' :: r7 =>
                match digitSpan r7 with
                | ([], _) => none
                | (d4, r8) =>
                  match r8 with
                  | ']' :: _ =>
                    some ((digitsToNat d1 : Int), (digitsToNat d2 : Int),
                      (digitsToNat d3 : Int), (digitsToNat d4 : Int))
                  | _ => none
              | _ => none
          | _ => none
      | _ => none
  | _ => none

/-! ### `utils/ui_parser.py`: `UINode` and `UITreeParser` -/

/-- A single UI node from the hierarchy (`ui_parser.UINode`).  The
`children` list is omitted: it is populated by `_parse_node` but never read
by any consumer of the parse (and in Python it aliases the flat list). -/
structure UINode where
  index : Nat
  text : String := ""
  resource_id : String := ""
  class_name : String := ""
  package : String := ""
  content_desc : String := ""
  checkable : Bool := false
  checked : Bool := false
  clickable : Bool := false
  enabled : Bool := true
  focusable : Bool := false
  focused : Bool := false
  scrollable : Bool := false
  long_clickable : Bool := false
  password : Bool := false
  selected : Bool := false
  visible : Bool := true
  bounds : Int × Int × Int × Int := (0, 0, 0, 0)
deriving Repr, DecidableEq, Inhabited

namespace UINode

/-- Center coordinates (`//` is Python floor division). -/
def center (n : UINode) : Int × Int :=
  let (x1, y1, x2, y2) := n.bounds
  (Int.fdiv (x1 + x2) 2, Int.fdiv (y1 + y2) 2)

def width (n : UINode) : Int := n.bounds.2.2.1 - n.bounds.1

def height (n : UINode) : Int := n.bounds.2.2.2 - n.bounds.2.1

def area (n : UINode) : Int := n.width * n.height

/-- Best display name for this element. -/
def display_name (n : UINode) : String :=
  if n.text ≠ "" then strTake n.text 30
  else if n.content_desc ≠ "" then strTake n.content_desc 30
  else if n.resource_id ≠ "" then
    let parts := strSplitOn n.resource_id "/"
    if parts.length > 1 then strTake (parts.getLastD "") 30
    else strTake n.resource_id 30
  else strTake (lastSplit n.class_name ".") 20

/-- Element type for the CompText shorthand, from class-name heuristics
and the clickable flag. -/
def element_type (n : UINode) : String :=
  let cl := strLower n.class_name
  if strContains cl "button" then "B"
  else if strContains cl "edittext" || strContains cl "textfield" then "I"
  else if strContains cl "checkbox" then "C"
  else if strContains cl "switch" || strContains cl "toggle" then "S"
  else if strContains cl "image" then "G"
  else if strContains cl "text" then "T"
  else if strContains cl "list" || strContains cl "recycler" then "L"
  else if strContains cl "scroll" then "R"
  else if n.clickable then "K"
  else "E"

/-- CompText line `index:type:name@x,y`. -/
def to_comptext (n : UINode) : String :=
  let (cx, cy) := n.center
  toString n.index ++ ":" ++ n.element_type ++ ":" ++ n.display_name ++ "@" ++
    toString cx ++ "," ++ toString cy

end UINode

namespace UITreeParser

/-- Build a `UINode` from an XML element's attributes
(`UITreeParser._parse_node`, one node). -/
def mkNode (attrib : List (String × String)) (idx : Nat) : UINode :=
  { index := idx
    text := attrGet attrib "text" ""
    resource_id := attrGet attrib "resource-id" ""
    class_name := attrGet attrib "class" ""
    package := attrGet attrib "package" ""
    content_desc := attrGet attrib "content-desc" ""
    checkable := attrGet attrib "checkable" "false" == "true"
    checked := attrGet attrib "checked" "false" == "true"
    clickable := attrGet attrib "clickable" "false" == "true"
    enabled := attrGet attrib "enabled" "true" == "true"
    focusable := attrGet attrib "focusable" "false" == "true"
    focused := attrGet attrib "focused" "false" == "true"
    scrollable := attrGet attrib "scrollable" "false" == "true"
    long_clickable := attrGet attrib "long-clickable" "false" == "true"
    password := attrGet attrib "password" "false" == "true"
    selected := attrGet attrib "selected" "false" == "true"
    bounds :=
      match boundsMatch (attrGet attrib "bounds" "[0,0][0,0]") with
      | some b => b
      | none => (0, 0, 0, 0) }

mutual

/-- `UITreeParser._parse_node`: pre-order flattening of the XML tree with
a running index counter. -/
def parseNodeE : XmlElem → Nat → List UINode × Nat
  | .mk _ attrib ch, c =>
    let (childNodes, c') := parseNodeF ch (c + 1)
    (mkNode attrib c :: childNodes, c')

def parseNodeF (f : XmlForest) (c : Nat) : List UINode × Nat :=
  match f with
  | .nil => ([], c)
  | .cons e rest =>
    let (l1, c') := parseNodeE e c
    let (l2, c'') := parseNodeF rest c'
    (l1 ++ l2, c'')

end

/-- `UITreeParser._filter_nodes`: enabled, above the area threshold, and
carrying content or interactivity. -/
def filterNodes (minArea : Int) (nodes : List UINode) : List UINode :=
  nodes.filter fun n =>
    n.enabled && !(n.area < minArea) &&
      ((n.text ≠ "" || n.content_desc ≠ "" || n.resource_id ≠ "") ||
        (n.clickable || n.scrollable || n.checkable))

/-- The sort key `(-score, y, x)` of `_sort_by_relevance`. -/
def relevanceKey (n : UINode) : Int × Int × Int :=
  let score : Int :=
    (if n.clickable then 100 else 0) + (if n.scrollable then 50 else 0) +
      (if n.checkable then 40 else 0) + (if n.text ≠ "" then 30 else 0) +
      (if n.content_desc ≠ "" then 20 else 0) + (if n.resource_id ≠ "" then 10 else 0)
  (-score, n.bounds.2.1, n.bounds.1)

/-- Lexicographic `≤` on sort keys (Python tuple comparison). -/
def keyLe (a b : Int × Int × Int) : Bool :=
  if a.1 < b.1 then true
  else if b.1 < a.1 then false
  else if a.2.1 < b.2.1 then true
  else if b.2.1 < a.2.1 then false
  else a.2.2 ≤ b.2.2

/-- Stable insertion used by the sort below. -/
def sortInsert {α : Type} (le : α → α → Bool) (a : α) : List α → List α
  | [] => [a]
  | b :: l => if le a b then a :: b :: l else b :: sortInsert le a l

/-- Stable sort by a total-preorder comparison.  Python's `sorted` is a
stable sort by the same key, and stable sorts by a fixed total preorder
have a unique result, so this insertion sort computes exactly
`sorted(nodes, key=relevance_score)`. -/
def stableSortBy {α : Type} (le : α → α → Bool) : List α → List α
  | [] => []
  | a :: l => sortInsert le a (stableSortBy le l)

def sortByRelevance (nodes : List UINode) : List UINode :=
  stableSortBy (fun a b => keyLe (relevanceKey a) (relevanceKey b)) nodes

/-- Re-indexing `node.index = i` over `sorted_nodes[:max_elements]`. -/
def reindex : Nat → List UINode → List UINode
  | _, [] => []
  | i, n :: l => { n with index := i } :: reindex (i + 1) l

/-- `UITreeParser.parse` with parameters `min_area`, `max_elements`
(defaults 100 and 50): flatten, filter, sort by relevance, cap, re-index.
`none` stands for an `ET.ParseError`, which yields `[]`. -/
def parse (minArea : Int) (maxElements : Nat) (doc : Option XmlElem) :
    List UINode :=
  match doc with
  | none => []
  | some root =>
    let nodes := (parseNodeE root 0).1
    let sorted := sortByRelevance (filterNodes minArea nodes)
    reindex 0 (sorted.take maxElements)

/-- `UITreeParser.to_comptext_format`. -/
def to_comptext_format (nodes : List UINode) (package activity : String) :
    String :=
  let l1 : List String := if package ≠ "" then ["App:" ++ lastSplit package "."] else []
  let l2 : List String := if activity ≠ "" then ["Act:" ++ lastSplit activity "."] else []
  String.intercalate "\n" (l1 ++ l2 ++ ["Els:"] ++ nodes.map UINode.to_comptext)

end UITreeParser

/-- `ui_parser.parse_ui_dump(xml, comptext=True)`: parse with the default
parser parameters and render the CompText encoding. -/
def parse_ui_dump (doc : Option XmlElem) : List UINode × String :=
  let nodes := UITreeParser.parse 100 50 doc
  (nodes, UITreeParser.to_comptext_format nodes "" "")

/-! ### `droidrun_wrapper.py`: device-side data model -/

/-- `droidrun_wrapper.ActionType`. -/
inductive ActionType where
  | tap | swipe | type_ | key | back | home | recent | screenshot
  | launch_app | wait
deriving Repr, DecidableEq, Inhabited

/-- `droidrun_wrapper.UIElement` (the element type carried by
`ScreenState`). -/
structure UIElement where
  resource_id : String := ""
  class_name : String := ""
  text : String := ""
  content_desc : String := ""
  bounds : Int × Int × Int × Int := (0, 0, 0, 0)
  clickable : Bool := false
  scrollable : Bool := false
  focusable : Bool := false
  enabled : Bool := true
  selected : Bool := false
  checkable : Bool := false
  checked : Bool := false
  index : Int := 0
  package : String := ""
deriving Repr, DecidableEq, Inhabited

namespace UIElement

/-- Center coordinates (`//` is Python floor division). -/
def center (e : UIElement) : Int × Int :=
  let (l, t, r, b) := e.bounds
  (Int.fdiv (l + r) 2, Int.fdiv (t + b) 2)

/-- Human-readable name (no truncation, unlike `UINode.display_name`). -/
def display_name (e : UIElement) : String :=
  if e.text ≠ "" then e.text
  else if e.content_desc ≠ "" then e.content_desc
  else if e.resource_id ≠ "" then lastSplit e.resource_id "/"
  else lastSplit e.class_name "."

end UIElement

/-- `droidrun_wrapper.ScreenState`.  The `timestamp` is a clock reading
(modelled as an integer). -/
structure ScreenState where
  package : String := ""
  activity : String := ""
  elements : List UIElement := []
  screenshot_path : Option String := none
  screenshot_base64 : Option String := none
  raw_xml : Option String := none
  timestamp : Int := 0
deriving Repr, DecidableEq, Inhabited

/-- `droidrun_wrapper.ActionResult`. -/
structure ActionResult where
  success : Bool
  action : ActionType
  message : String := ""
  error : Option String := none
  screen_state : Option ScreenState := none
deriving Repr, DecidableEq, Inhabited

/-- `int(x)` on a string: optional surrounding whitespace, optional sign,
ASCII digits (`ValueError` is `none`; digit-group underscores are not
modelled). -/
def pyIntStr (s : String) : Option Int :=
  let cs := (s.toList.dropWhile Char.isWhitespace).reverse
  let cs := (cs.dropWhile Char.isWhitespace).reverse
  let (neg, cs1) :=
    match cs with
    | '-' :: r => (true, r)
    | '+' :: r => (false, r)
    | _ => (false, cs)
  if cs1 = [] || !(cs1.all Char.isDigit) then none
  else some (if neg then -(digitsToNat cs1 : Int) else (digitsToNat cs1 : Int))

mutual

/-- `root.iter(tag)`: all elements with the given tag, in document
(pre-)order, the root included. -/
def iterTagE (t : String) : XmlElem → List XmlElem
  | .mk tg attrib ch =>
    (if tg = t then [XmlElem.mk tg attrib ch] else []) ++ iterTagF t ch

def iterTagF (t : String) : XmlForest → List XmlElem
  | .nil => []
  | .cons e rest => iterTagE t e ++ iterTagF t rest

end

/-- The bounds parse of `DroidRunWrapper._parse_ui_xml`:
`replace("][", ",")`, `strip("[]")`, `split(",")`, `int` on each part.  An
`int` failure (`ValueError`) yields `(0,0,0,0)`; a part count other than 4
is mapped to `(0,0,0,0)` as well (Python would store a mis-sized tuple
that faults on first use; no well-formed dump produces one). -/
def parseBoundsSplit (bstr : String) : Int × Int × Int × Int :=
  let parts := strSplitOn (strStrip (strReplace bstr "][" ",") ['[', ']']) ","
  match parts.mapM pyIntStr with
  | some [a, b, c, d] => (a, b, c, d)
  | _ => (0, 0, 0, 0)

/-- One `UIElement` from a `node` element's attributes
(`DroidRunWrapper._parse_ui_xml` loop body). -/
def mkUIElement (attrib : List (String × String)) : UIElement :=
  { resource_id := attrGet attrib "resource-id" ""
    class_name := attrGet attrib "class" ""
    text := attrGet attrib "text" ""
    content_desc := attrGet attrib "content-desc" ""
    bounds := parseBoundsSplit (attrGet attrib "bounds" "[0,0][0,0]")
    clickable := attrGet attrib "clickable" "false" == "true"
    scrollable := attrGet attrib "scrollable" "false" == "true"
    focusable := attrGet attrib "focusable" "false" == "true"
    enabled := attrGet attrib "enabled" "true" == "true"
    selected := attrGet attrib "selected" "false" == "true"
    checkable := attrGet attrib "checkable" "false" == "true"
    checked := attrGet attrib "checked" "false" == "true"
    index := (pyIntStr (attrGet attrib "index" "0")).getD 0
    package := attrGet attrib "package" "" }

/-- `DroidRunWrapper._parse_ui_xml`: every `node` element, kept when it has
text, a content description, or is clickable (`none` = `ET.ParseError`,
giving `[]`).  The `index` attribute is parsed with `int()`; a failure
there would raise `ValueError` out of the loop — not modelled, as the
`index` attributes in this development are numeric. -/
def parse_ui_xml (doc : Option XmlElem) : List UIElement :=
  match doc with
  | none => []
  | some root =>
    ((iterTagE "node" root).map fun e => mkUIElement e.attrib).filter fun el =>
      el.text ≠ "" || el.content_desc ≠ "" || el.clickable

/-! ### `agents/mobile_agent.py`: screen formatting -/

/-- `MobileAgent._format_screen_compact`. -/
def formatScreenCompact (screen : ScreenState) : String :=
  let app := if screen.package ≠ "" then lastSplit screen.package "." else "?"
  let elLines := mapIdxAux
    (fun i el =>
      let elType := if el.clickable then "B" else if el.text ≠ "" then "T" else "E"
      let nm := strTake el.display_name 20
      let (x, y) := el.center
      toString i ++ ":" ++ elType ++ ":" ++ nm ++ "@" ++ toString x ++ "," ++ toString y)
    0 (screen.elements.take 15)
  String.intercalate "\n" (["App:" ++ app, "Els:"] ++ elLines)
where
  mapIdxAux (f : Nat → UIElement → String) : Nat → List UIElement → List String
    | _, [] => []
    | i, a :: l => f i a :: mapIdxAux f (i + 1) l

/-- `MobileAgent._format_screen_verbose`. -/
def formatScreenVerbose (screen : ScreenState) : String :=
  let elLines := mapIdxAux
    (fun i el =>
      let parts := ["[" ++ toString i ++ "]"] ++
        (if el.text ≠ "" then ["text=\"" ++ el.text ++ "\""] else []) ++
        (if el.content_desc ≠ "" then ["desc=\"" ++ el.content_desc ++ "\""] else []) ++
        (if el.resource_id ≠ "" then ["id=\"" ++ lastSplit el.resource_id "/" ++ "\""] else []) ++
        ["clickable=" ++ (if el.clickable then "True" else "False")] ++
        ["center=(" ++ toString el.center.1 ++ ", " ++ toString el.center.2 ++ ")"]
      String.intercalate " " parts)
    0 (screen.elements.take 20)
  String.intercalate "\n"
    (["Package: " ++ screen.package, "Activity: " ++ screen.activity, "", "UI Elements:"] ++ elLines)
where
  mapIdxAux (f : Nat → UIElement → String) : Nat → List UIElement → List String
    | _, [] => []
    | i, a :: l => f i a :: mapIdxAux f (i + 1) l

/-! ### `json.dumps` (compact separators, as used by
`MobileActionSchema.to_comptext`) -/

def hexChar (n : Nat) : Char :=
  if n < 10 then Char.ofNat (48 + n) else Char.ofNat (87 + n)

def hex4 (n : Nat) : String :=
  String.mk [hexChar (n / 4096 % 16), hexChar (n / 256 % 16),
    hexChar (n / 16 % 16), hexChar (n % 16)]

/-- Escape one character as `json.dumps` does with its default
`ensure_ascii=True` (astral code points become surrogate pairs). -/
def jdumpChar (c : Char) : String :=
  if c = '"' then "\\\""
  else if c = '\\' then "\\\\"
  else if c = '\n' then "\\n"
  else if c = '\t' then "\\t"
  else if c = '\r' then "\\r"
  else if c = Char.ofNat 8 then "\\b"
  else if c = Char.ofNat 12 then "\\f"
  else if c.toNat < 32 then "\\u" ++ hex4 c.toNat
  else if c.toNat < 127 then String.mk [c]
  else if c.toNat < 65536 then "\\u" ++ hex4 c.toNat
  else
    let v := c.toNat - 65536
    "\\u" ++ hex4 (55296 + v / 1024) ++ "\\u" ++ hex4 (56320 + v % 1024)

def jdumpStr (s : String) : String :=
  "\"" ++ String.join (s.toList.map jdumpChar) ++ "\""

/-- Smallest `k ≤ fuel` with `den ∣ 10^k` (every binary fraction — every
Python float — has one). -/
def pow10Exp : Nat → Nat → Nat → Option Nat
  | 0, _, _ => none
  | fuel + 1, k, den => if 10 ^ k % den = 0 then some k else pow10Exp fuel (k + 1) den

/-- Pad a natural to `k` digits with leading zeros. -/
def natToStrPad (n k : Nat) : String :=
  let s := toString n
  String.mk (List.replicate (k - s.length) '0') ++ s

/-- Print a number the way `json.dumps` prints the corresponding Python
value: integers bare, fractions in plain decimal with no trailing zeros.
(The int/float distinction and the exponent-notation thresholds of float
`repr` are not modelled; no number in this development reaches them.)  -/
def numToStr (v : PyNum) : String :=
  let sign := if v.num < 0 then "-" else ""
  if v.den = 1 then toString v.num
  else
    match pow10Exp 64 1 v.den with
    | none => toString v.num ++ "/" ++ toString v.den
    | some k =>
      let scaled := v.num.natAbs * (10 ^ k / v.den)
      sign ++ toString (scaled / 10 ^ k) ++ "." ++ natToStrPad (scaled % 10 ^ k) k

mutual

/-- `json.dumps(v, separators=(",", ":"))`. -/
def jdump : Json → String
  | .null => "null"
  | .bool b => if b then "true" else "false"
  | .num v => numToStr v
  | .str s => jdumpStr s
  | .arr xs => "[" ++ jdumpList xs ++ "]"
  | .obj kvs => String.mk [lbraceC] ++ jdumpObj kvs ++ String.mk [rbraceC]

def jdumpList : List Json → String
  | [] => ""
  | [x] => jdump x
  | x :: rest => jdump x ++ "," ++ jdumpList rest

def jdumpObj : List (String × Json) → String
  | [] => ""
  | [(k, v)] => jdumpStr k ++ ":" ++ jdump v
  | (k, v) :: rest => jdumpStr k ++ ":" ++ jdump v ++ "," ++ jdumpObj rest

end

/-! ### `schemas/mobile_schema.py`: the CompText action schema -/

namespace MobileSchema

/-- `mobile_schema.ActionType` (the compact DSL's action enum). -/
inductive ActionType where
  | tap | swipe | type_ | back | home | launch | wait | done
deriving Repr, DecidableEq, Inhabited

def ActionType.value : ActionType → String
  | .tap => "tap"
  | .swipe => "swipe"
  | .type_ => "type"
  | .back => "back"
  | .home => "home"
  | .launch => "launch"
  | .wait => "wait"
  | .done => "done"

/-- `ActionType(s)`: enum lookup by value; `none` is the `ValueError`
Python raises for an unknown value. -/
def ActionType.ofValue : String → Option ActionType
  | "tap" => some .tap
  | "swipe" => some .swipe
  | "type" => some .type_
  | "back" => some .back
  | "home" => some .home
  | "launch" => some .launch
  | "wait" => some .wait
  | "done" => some .done
  | _ => none

/-- `mobile_schema.MobileActionSchema`.  `params` is a Python dict
(association list with unique keys). -/
structure MobileActionSchema where
  thought : String
  action : ActionType
  params : List (String × Json)
  confidence : PyNum
deriving DecidableEq, Inhabited

/-- The verbose→compact parameter-key map of `_compress_params`. -/
def compressKey (k : String) : String :=
  if k = "element_index" then "ei"
  else if k = "text" then "txt"
  else if k = "package" then "pkg"
  else if k = "direction" then "d"
  else if k = "seconds" then "s"
  else k

/-- The compact→verbose parameter-key map of `from_comptext`. -/
def decompressKey (k : String) : String :=
  if k = "ei" then "element_index"
  else if k = "txt" then "text"
  else if k = "pkg" then "package"
  else if k = "d" then "direction"
  else if k = "s" then "seconds"
  else k

/-- `_compress_params`: a dict comprehension, so duplicate images collide
with later-wins semantics. -/
def compressParams (ps : List (String × Json)) : List (String × Json) :=
  ps.foldl (fun acc kv => objInsert acc (compressKey kv.1) kv.2) []

def decompressParams (ps : List (String × Json)) : List (String × Json) :=
  ps.foldl (fun acc kv => objInsert acc (decompressKey kv.1) kv.2) []

/-- `round(x, 2)` (ties to even).  Python rounds the binary double, which
can differ from exact rational rounding on decimal ties; no claim touches
the rounded confidence. -/
def pyRound2 (v : PyNum) : PyNum :=
  let a := v.num * 100
  let d := (v.den : Int)
  let q := Int.fdiv a d
  let r := a - q * d
  let up : Bool := 2 * r > d || (2 * r = d && q % 2 = 1)
  pyNumMk (if up then q + 1 else q) 100

/-- The dictionary `to_comptext` passes to `json.dumps`. -/
def to_comptext_obj (s : MobileActionSchema) : List (String × Json) :=
  [("t", Json.str (strTake s.thought 50)),
   ("a", Json.str s.action.value),
   ("p", Json.obj (compressParams s.params)),
   ("c", Json.num (pyRound2 s.confidence))]

/-- `MobileActionSchema.to_comptext`. -/
def to_comptext (s : MobileActionSchema) : String :=
  jdump (Json.obj (to_comptext_obj s))

/-- `MobileActionSchema.from_comptext(data)`.  `none` models the
exceptions Python would raise (`ValueError` for an unknown action value,
`AttributeError` when `p` is not a dict).  A non-string `t` or non-number
`c` is stored as-is by Python; those fields default here, and no claim
reaches that corner. -/
def from_comptext (data : List (String × Json)) : Option MobileActionSchema :=
  let thought := match objGet data "t" with
    | some (.str s) => s
    | _ => ""
  let params? : Option (List (String × Json)) :=
    match objGet data "p" with
    | some (.obj ps) => some (decompressParams ps)
    | none => some []
    | some _ => none
  let act? : Option ActionType :=
    match objGet data "a" with
    | some (.str s) => ActionType.ofValue s
    | none => some .done
    | some _ => none
  let conf := match objGet data "c" with
    | some (.num v) => v
    | _ => ⟨0, 1⟩
  match act?, params? with
  | some a, some ps =>
    some { thought := thought, action := a, params := ps, confidence := conf }
  | _, _ => none

end MobileSchema

/-! ### Python dynamic-typing helpers used by `_execute_action`

Each models one Python operation on a decoded JSON value; `Except.error`
is an exception (always caught by `_execute_action`'s `try`, except where
noted).  Exception messages are descriptive, not byte-exact CPython text:
no claim inspects them. -/

/-- `k in v`: dict-key test, substring test on strings, membership on
lists; `TypeError` otherwise. -/
def pyIn (k : String) (v : Json) : Except String Bool :=
  match v with
  | .obj kvs => .ok (objGet kvs k).isSome
  | .str s => .ok (strContains s k)
  | .arr xs => .ok (xs.contains (.str k))
  | _ => .error "TypeError: argument of type is not iterable"

/-- `v.get(k, dflt)`: `AttributeError` unless `v` is a dict. -/
def pyGetD (v : Json) (k : String) (dflt : Json) : Except String Json :=
  match v with
  | .obj kvs => .ok ((objGet kvs k).getD dflt)
  | _ => .error "AttributeError: get"

/-- `v[k]` for a string key. -/
def pyIndex (v : Json) (k : String) : Except String Json :=
  match v with
  | .obj kvs =>
    match objGet kvs k with
    | some x => .ok x
    | none => .error ("KeyError: " ++ k)
  | _ => .error "TypeError: not subscriptable"

/-- `int(v)`: truncation toward zero for numbers, `True`/`False` as 1/0,
string parsing; `TypeError`/`ValueError` otherwise. -/
def pyIntOf (v : Json) : Except String Int :=
  match v with
  | .num n => .ok (Int.tdiv n.num (n.den : Int))
  | .bool b => .ok (if b then 1 else 0)
  | .str s =>
    match pyIntStr s with
    | some i => .ok i
    | none => .error ("ValueError: invalid literal for int: " ++ s)
  | _ => .error "TypeError: int() argument"

/-- `float(x)` on a string: optional sign, digits on either side of an
optional point, optional exponent (`inf`/`nan` words not modelled). -/
def pyFloatStr (s : String) : Option PyNum :=
  let cs := (((s.toList.dropWhile Char.isWhitespace).reverse).dropWhile
    Char.isWhitespace).reverse
  let (neg, cs1) :=
    match cs with
    | '-' :: r => (true, r)
    | '+' :: r => (false, r)
    | _ => (false, cs)
  let (intDs, cs2) := digitSpan cs1
  let (fracDs, cs3) :=
    match cs2 with
    | '.' :: r => digitSpan r
    | _ => ([], cs2)
  if intDs = [] ∧ fracDs = [] then none
  else
    let (expNeg, expDs, cs4) :=
      match cs3 with
      | e :: r =>
        if e = 'e' || e = 'E' then
          let (sgn, r1) :=
            match r with
            | '+' :: r' => (false, r')
            | '-' :: r' => (true, r')
            | _ => (false, r)
          match digitSpan r1 with
          | ([], _) => (false, ([] : List Char), cs3)
          | (ds, r2) => (sgn, ds, r2)
        else (false, [], cs3)
      | [] => (false, [], cs3)
    if cs4 ≠ [] then none
    else if cs3 ≠ [] ∧ expDs = [] then none
    else
      let l := fracDs.length
      let mantN : Nat := digitsToNat intDs * 10 ^ l + digitsToNat fracDs
      let eAbs : Nat := digitsToNat expDs
      let numN : Nat := if expNeg then mantN else mantN * 10 ^ eAbs
      let denN : Nat := if expNeg then 10 ^ l * 10 ^ eAbs else 10 ^ l
      some (pyNumMk (if neg then -(numN : Int) else (numN : Int)) denN)

/-- `float(v)`. -/
def pyFloatOf (v : Json) : Except String PyNum :=
  match v with
  | .num n => .ok n
  | .bool b => .ok ⟨if b then 1 else 0, 1⟩
  | .str s =>
    match pyFloatStr s with
    | some q => .ok q
    | none => .error ("ValueError: could not convert string to float: " ++ s)
  | _ => .error "TypeError: float() argument"

/-- `str(v)` as used inside f-strings (container rendering is
approximate: no claim inspects it). -/
def pyStr (v : Json) : String :=
  match v with
  | .str s => s
  | .num n => numToStr n
  | .bool b => if b then "True" else "False"
  | .null => "None"
  | v => jdump v

/-- `f"...{o}"` for an `Optional[str]` (Python prints `None`). -/
def optStr (o : Option String) : String := o.getD "None"

/-- Dict lookup on a decoded action (always an object here: both stages of
`_parse_action` produce dicts). -/
def jObjGet (j : Json) (k : String) : Option Json :=
  match j with
  | .obj kvs => objGet kvs k
  | _ => none

/-! ### `agents/mobile_agent.py`: data model and configuration -/

/-- `ollama_client.ChatMessage`. -/
structure ChatMessage where
  role : String
  content : String
deriving Repr, DecidableEq, Inhabited

/-- `ollama_client.ChatResponse` (the fields `execute` reads). -/
structure ChatResponse where
  message : ChatMessage
  total_tokens : Nat := 0
deriving Repr, DecidableEq, Inhabited

/-- `mobile_agent.AgentState`. -/
inductive AgentState where
  | idle | planning | executing | verifying | reflecting | completed | failed
deriving Repr, DecidableEq, Inhabited

/-- `mobile_agent.AgentStep`.  `action` and `reasoning` hold the raw
values of `action_data.get(...)` (Python stores them untyped). -/
structure AgentStep where
  step_number : Nat
  action : Json
  reasoning : Json
  result : Option ActionResult := none
  screen_before : Option ScreenState := none
  screen_after : Option ScreenState := none
  tokens_used : Nat := 0
  duration_ms : Int := 0
deriving DecidableEq, Inhabited

/-- `mobile_agent.AgentResult`. -/
structure AgentResult where
  success : Bool
  task : String
  steps : List AgentStep := []
  total_tokens : Nat := 0
  total_duration_ms : Int := 0
  error : Option String := none
  final_screen : Option ScreenState := none
deriving DecidableEq, Inhabited

/-- The `step_count` property. -/
def AgentResult.step_count (r : AgentResult) : Nat := r.steps.length

/-- `config.AgentConfig` (budgets are the natural numbers `validate()`
demands). -/
structure AgentConfig where
  max_steps : Nat := 10
  retry_attempts : Nat := 3
  step_delay : PyNum := ⟨1, 2⟩
  verify_actions : Bool := true
  context_memory_size : Nat := 5
  enable_reflection : Bool := true
  use_comptext : Bool := true
deriving Repr, DecidableEq, Inhabited

/-- `MobileAgent.SYSTEM_PROMPT`. -/
def SYSTEM_PROMPT : String :=
  String.intercalate "\n"
    ["You are a mobile automation agent controlling an Android device.",
     "",
     "Your capabilities:",
     "- Analyze screen states (UI elements, layout, current app)",
     "- Plan action sequences to complete user tasks",
     "- Execute actions: tap, swipe, type, back, home, launch_app",
     "- Verify results and adapt if needed",
     "",
     "Response format (JSON):",
     "\x7b",
     "    \"thought\": \"Brief reasoning about current state and next action\",",
     "    \"action\": \"tap|swipe|type|back|home|launch_app|wait|done\",",
     "    \"params\": \x7b",
     "        // For tap: \x7b\"element_index\": 0\x7d or \x7b\"x\": 100, \"y\": 200\x7d",
     "        // For swipe: \x7b\"direction\": \"up|down|left|right\"\x7d or \x7b\"x1\":..., \"y1\":..., \"x2\":..., \"y2\":...\x7d",
     "        // For type: \x7b\"text\": \"text to type\"\x7d",
     "        // For launch_app: \x7b\"package\": \"com.android.chrome\"\x7d",
     "        // For wait: \x7b\"seconds\": 1.0\x7d",
     "        // For done: \x7b\x7d",
     "    \x7d,",
     "    \"confidence\": 0.0-1.0",
     "\x7d",
     "",
     "Rules:",
     "- Use element_index when possible (more reliable than coordinates)",
     "- Always verify action success before proceeding",
     "- If stuck, try alternative approaches",
     "- Report \"done\" when task is complete",
     "- Keep thoughts concise (CompText optimized)"] ++ "\n"

/-- `MobileAgent.COMPTEXT_SYSTEM_PROMPT`. -/
def COMPTEXT_SYSTEM_PROMPT : String :=
  "MA:Android. Acts:tap/swipe/type/back/home/launch/wait/done.\n" ++
  "JSON:\x7bt:\"thought\",a:\"action\",p:\x7bparams\x7d,c:0.0-1.0\x7d\n" ++
  "tap:\x7bei:N\x7d|\x7bx,y\x7d. swipe:\x7bd:\"u/d/l/r\"\x7d. type:\x7btxt:\"\"\x7d. " ++
  "launch:\x7bpkg:\"\"\x7d. done:\x7b\x7d\nVerify after act. Concise."

/-- `MobileAgent._format_screen_context`. -/
def formatScreenContext (cfg : AgentConfig) (screen : ScreenState) : String :=
  if cfg.use_comptext then formatScreenCompact screen else formatScreenVerbose screen

/-- `MobileAgent._build_initial_messages`. -/
def buildInitialMessages (cfg : AgentConfig) (task : String) (screen : ScreenState) :
    List ChatMessage :=
  [⟨"system", if cfg.use_comptext then COMPTEXT_SYSTEM_PROMPT else SYSTEM_PROMPT⟩,
   ⟨"user", "Task: " ++ task ++ "\n\nCurrent screen:\n" ++ formatScreenContext cfg screen⟩]

/-- `MobileAgent._build_step_feedback`. -/
def buildStepFeedback (cfg : AgentConfig) (ar : ActionResult) (screen : ScreenState) :
    String :=
  let status := if ar.success then "OK" else "FAIL:" ++ optStr ar.error
  if cfg.use_comptext then "R:" ++ status ++ "\n" ++ formatScreenContext cfg screen
  else "Action result: " ++ status ++ "\n\nNew screen state:\n" ++
    formatScreenContext cfg screen

/-- Python `lst[-k:]` (note `lst[-0:]` is `lst[0:]`, the whole list). -/
def pySliceLast (l : List ScreenState) (k : Nat) : List ScreenState :=
  if k = 0 then l else l.drop (l.length - k)

/-- `MobileAgent._add_to_context`: append, then keep
`_context_memory[-max_size:]` when over the limit. -/
def addToContext (mem : List ScreenState) (s : ScreenState) (maxSize : Nat) :
    List ScreenState :=
  let m := mem ++ [s]
  if m.length > maxSize then pySliceLast m maxSize else m

/-! ### `MobileAgent._execute_action` -/

/-- A `DeviceController` operation dispatched by `_execute_action` (the
argument types are what the Python call sites actually pass). -/
inductive DeviceOp where
  | tap_element (el : UIElement)
  | tap (x y : Int)
  | swipe (x1 y1 x2 y2 : Int)
  | type_text (t : Json)
  | back
  | home
  | launch_app (pkg : Json)
  | wait (s : PyNum)
deriving DecidableEq, Inhabited

/-- The swipe-coordinate table of `_execute_action` (`cx, cy = 540, 960`,
`distance = 500`). -/
def swipeDirections (d : String) : Option (Int × Int × Int × Int) :=
  if d = "up" || d = "u" then some (540, 1460, 540, 460)
  else if d = "down" || d = "d" then some (540, 460, 540, 1460)
  else if d = "left" || d = "l" then some (1040, 960, 40, 960)
  else if d = "right" || d = "r" then some (40, 960, 1040, 960)
  else none

/-- `element index` as a number (Python `bool` is an `int`). -/
def asPyNumIdx : Json → Option PyNum
  | .num v => some v
  | .bool b => some ⟨if b then 1 else 0, 1⟩
  | _ => none

/-- The body of `_execute_action`'s `try` block: either a device operation
to dispatch, or an immediate `ActionResult`; `Except.error` is an
exception that the enclosing `except` turns into
`ActionResult(success=False, action=TAP, error=str(e))`. -/
def execActionBody (act : String) (params : Json) (screen : ScreenState) :
    Except String (Sum DeviceOp ActionResult) := do
  if act = "tap" then
    let hasEi ← pyIn "element_index" params
    let hasEiShort ← if hasEi then pure true else pyIn "ei" params
    if hasEi || hasEiShort then
      let inner ← pyGetD params "ei" (.num ⟨0, 1⟩)
      let idxV ← pyGetD params "element_index" inner
      match asPyNumIdx idxV with
      | none => .error "TypeError: comparison of int and non-number"
      | some v =>
        if 0 ≤ v.num ∧ v.num < (screen.elements.length : Int) * (v.den : Int) then
          if v.den = 1 then
            pure (.inl (.tap_element (screen.elements.getD v.num.toNat default)))
          else .error "TypeError: list indices must be integers"
        else
          pure (.inr ⟨false, .tap, "", some ("Invalid element index: " ++ pyStr idxV), none⟩)
    else
      let hasX ← pyIn "x" params
      let hasY ← if hasX then pyIn "y" params else pure false
      if hasX && hasY then
        let xv ← pyIndex params "x"
        let x ← pyIntOf xv
        let yv ← pyIndex params "y"
        let y ← pyIntOf yv
        pure (.inl (.tap x y))
      else
        pure (.inr ⟨false, .tap, "", some "Missing tap coordinates or element_index", none⟩)
  else if act = "swipe" then
    let hasD ← pyIn "direction" params
    let hasDShort ← if hasD then pure true else pyIn "d" params
    if hasD || hasDShort then
      let inner ← pyGetD params "d" (.str "up")
      let direction ← pyGetD params "direction" inner
      match direction with
      | .str sd =>
        match swipeDirections sd with
        | some (x1, y1, x2, y2) => pure (.inl (.swipe x1 y1 x2 y2))
        | none => pure (.inr ⟨false, .swipe, "", some "Invalid swipe parameters", none⟩)
      | .arr _ => .error "TypeError: unhashable type: list"
      | .obj _ => .error "TypeError: unhashable type: dict"
      | _ => pure (.inr ⟨false, .swipe, "", some "Invalid swipe parameters", none⟩)
    else
      let h1 ← pyIn "x1" params
      let h2 ← if h1 then pyIn "y1" params else pure false
      let h3 ← if h1 && h2 then pyIn "x2" params else pure false
      let h4 ← if h1 && h2 && h3 then pyIn "y2" params else pure false
      if h1 && h2 && h3 && h4 then
        let x1 ← pyIntOf (← pyIndex params "x1")
        let y1 ← pyIntOf (← pyIndex params "y1")
        let x2 ← pyIntOf (← pyIndex params "x2")
        let y2 ← pyIntOf (← pyIndex params "y2")
        pure (.inl (.swipe x1 y1 x2 y2))
      else
        pure (.inr ⟨false, .swipe, "", some "Invalid swipe parameters", none⟩)
  else if act = "type" then
    let inner ← pyGetD params "txt" (.str "")
    let text ← pyGetD params "text" inner
    if jsonTruthy text then pure (.inl (.type_text text))
    else pure (.inr ⟨false, .type_, "", some "Missing text to type", none⟩)
  else if act = "back" then
    pure (.inl .back)
  else if act = "home" then
    pure (.inl .home)
  else if act = "launch_app" || act = "launch" then
    let inner ← pyGetD params "pkg" (.str "")
    let package ← pyGetD params "package" inner
    if jsonTruthy package then pure (.inl (.launch_app package))
    else pure (.inr ⟨false, .launch_app, "", some "Missing package name", none⟩)
  else if act = "wait" then
    let inner ← pyGetD params "s" (.num ⟨1, 1⟩)
    let sv ← pyGetD params "seconds" inner
    let secs ← pyFloatOf sv
    pure (.inl (.wait secs))
  else
    pure (.inr ⟨false, .tap, "", some ("Unknown action: " ++ act), none⟩)

/-! ### `MobileAgent.execute`: the Plan-Execute-Verify loop

The environment supplies the behaviour of the collaborators `execute`
awaits: successive `device.get_screen_state()` reads, successive
`ollama.chat()` responses, the device's reply to each dispatched
operation, and the wall clock (`time.time()`) readings, each indexed by
its call count.  `Except.error` is an exception crossing into `execute`'s
`try`; device operations reply with an `ActionResult` (the wrapper's
boundary contract). -/

structure Env where
  screens : Nat → Except String ScreenState
  chat : Nat → Except String ChatResponse
  dev : Nat → DeviceOp → ActionResult
  clock : Nat → Int

/-- The mutable state of one `execute` call: `result`'s accumulating
fields, the conversation, the loop's `screen` variable, the agent-object
state (`_state`, `_context_memory`), and ghost instrumentation (call
counters, the list of dispatched device operations, the list of screens
successfully read). -/
structure LoopSt where
  screen : ScreenState
  messages : List ChatMessage
  steps : List AgentStep
  totalTokens : Nat
  success : Bool
  error : Option String
  agState : AgentState
  ctx : List ScreenState
  trace : List DeviceOp
  nChat : Nat
  nScreen : Nat
  nDev : Nat
  nClock : Nat
  reads : List ScreenState
deriving Inhabited

/-- Outcome of one loop iteration: `continue`, `break`, or an exception
propagating to `execute`'s `except`. -/
inductive IterOut where
  | cont (st : LoopSt)
  | halt (st : LoopSt)
  | raised (st : LoopSt) (e : String)
deriving Inhabited

/-- `action_data.get("action", "").lower()` — the one line of
`_execute_action` outside its `try`, so its `AttributeError` (non-string
action value) escapes to `execute`'s handler. -/
def loweredAction (ad : Json) : Except String String :=
  match (jObjGet ad "action").getD (.str "") with
  | .str a => .ok (strLower a)
  | _ => .error "AttributeError: lower"

/-- One iteration of `execute`'s `for step_num in range(max_steps)` body. -/
def loopIter (env : Env) (cfg : AgentConfig) (stepNum : Nat) (st : LoopSt) :
    IterOut :=
  let stepStart := env.clock st.nClock
  let st := { st with nClock := st.nClock + 1, agState := .planning }
  match env.chat st.nChat with
  | .error e => .raised { st with nChat := st.nChat + 1 } e
  | .ok resp =>
    let st := { st with
      nChat := st.nChat + 1
      totalTokens := st.totalTokens + resp.total_tokens }
    match parseAction resp.message.content with
    | none => .cont st
    | some ad =>
      if !jsonTruthy ad then .cont st
      else
        let step0 : AgentStep :=
          { step_number := stepNum + 1
            action := (jObjGet ad "action").getD (.str "unknown")
            reasoning := (jObjGet ad "thought").getD (.str "")
            screen_before := some st.screen
            tokens_used := resp.total_tokens }
        if jObjGet ad "action" = some (.str "done") then
          .halt { st with
            steps := st.steps ++
              [{ step0 with result := some ⟨true, .wait, "Task completed", none, none⟩ }]
            success := true
            agState := .completed }
        else
          let st := { st with agState := .executing }
          match loweredAction ad with
          | .error e => .raised st e
          | .ok act =>
            let params := (jObjGet ad "params").getD (.obj [])
            let (ar, st) :=
              match execActionBody act params st.screen with
              | .ok (.inl op) =>
                (env.dev st.nDev op,
                 { st with nDev := st.nDev + 1, trace := st.trace ++ [op] })
              | .ok (.inr r) => (r, st)
              | .error e => (⟨false, .tap, "", some e, none⟩, st)
            let step1 := { step0 with result := some ar }
            let st := { st with agState := .verifying }
            match env.screens st.nScreen with
            | .error e => .raised { st with nScreen := st.nScreen + 1 } e
            | .ok scr =>
              let st := { st with
                nScreen := st.nScreen + 1
                reads := st.reads ++ [scr]
                ctx := addToContext st.ctx scr cfg.context_memory_size }
              let step2 := { step1 with
                screen_after := some scr
                duration_ms := (env.clock st.nClock - stepStart) * 1000 }
              let st := { st with
                nClock := st.nClock + 1
                screen := scr
                steps := st.steps ++ [step2]
                messages := st.messages ++
                  [⟨"assistant", resp.message.content⟩,
                   ⟨"user", buildStepFeedback cfg ar scr⟩] }
              if !ar.success then
                if stepNum < cfg.retry_attempts then .cont st
                else .halt { st with
                  error := some ("Action failed: " ++ optStr ar.error)
                  agState := .failed }
              else .cont st

/-- Outcome of the whole loop. -/
inductive LoopOut where
  | normal (st : LoopSt)
  | raised (st : LoopSt) (e : String)
deriving Inhabited

/-- `for step_num in range(max_steps)` with `continue`/`break`. -/
def loop (env : Env) (cfg : AgentConfig) : Nat → Nat → LoopSt → LoopOut
  | 0, _, st => .normal st
  | fuel + 1, stepNum, st =>
    match loopIter env cfg stepNum st with
    | .cont st' => loop env cfg fuel (stepNum + 1) st'
    | .halt st' => .normal st'
    | .raised st' e => .raised st' e

/-- The observable outcome of `execute`: the returned `AgentResult`, the
agent's final `_state` and `_context_memory`, and ghost instrumentation
(dispatched device operations, model-call count, screens read, whether an
internal exception was caught, and the first/last clock readings). -/
structure ExecOut where
  result : AgentResult
  finalState : AgentState
  ctx : List ScreenState
  trace : List DeviceOp
  chatCalls : Nat
  reads : List ScreenState
  raisedEx : Option String
  startTime : Int
  endTime : Int
deriving Inhabited

/-- The loop state right after `execute`'s successful initial screen read
and message seeding. -/
def initState (cfg : AgentConfig) (task : String) (ctx0 : List ScreenState)
    (s0 : ScreenState) : LoopSt :=
  { screen := s0
    messages := buildInitialMessages cfg task s0
    steps := []
    totalTokens := 0
    success := false
    error := none
    agState := .planning
    ctx := addToContext ctx0 s0 cfg.context_memory_size
    trace := []
    nChat := 0
    nScreen := 1
    nDev := 0
    nClock := 1
    reads := [s0] }

/-- `MobileAgent.execute(task)`.  `ctx0` is the agent's `_context_memory`
at entry (empty for a fresh agent). -/
def execute (env : Env) (cfg : AgentConfig) (task : String)
    (ctx0 : List ScreenState) : ExecOut :=
  let t0 := env.clock 0
  match env.screens 0 with
  | .error e =>
    { result := { success := false, task := task, error := some e }
      finalState := .failed
      ctx := ctx0
      trace := []
      chatCalls := 0
      reads := []
      raisedEx := some e
      startTime := t0
      endTime := t0 }
  | .ok s0 =>
    match loop env cfg cfg.max_steps 0 (initState cfg task ctx0 s0) with
    | .normal st =>
      let tEnd := env.clock st.nClock
      let exhausted := !st.success && st.agState ≠ .failed
      { result :=
          { success := st.success
            task := task
            steps := st.steps
            total_tokens := st.totalTokens
            total_duration_ms := (tEnd - t0) * 1000
            error := if exhausted then some "Max steps reached without completing task"
                     else st.error
            final_screen := some st.screen }
        finalState := if exhausted then .failed else st.agState
        ctx := st.ctx
        trace := st.trace
        chatCalls := st.nChat
        reads := st.reads
        raisedEx := none
        startTime := t0
        endTime := tEnd }
    | .raised st e =>
      { result :=
          { success := st.success
            task := task
            steps := st.steps
            total_tokens := st.totalTokens
            total_duration_ms := 0
            error := some e
            final_screen := none }
        finalState := .failed
        ctx := st.ctx
        trace := st.trace
        chatCalls := st.nChat
        reads := st.reads
        raisedEx := some e
        startTime := t0
        endTime := t0 }

/-- The state carried by an iteration outcome. -/
def IterOut.state : IterOut → LoopSt
  | .cont s => s
  | .halt s => s
  | .raised s _ => s

/-- The state carried by a loop outcome. -/
def LoopOut.state : LoopOut → LoopSt
  | .normal s => s
  | .raised s _ => s

/-- How one loop iteration can change the screen-related state: either it
leaves screen, reads and context memory untouched, or it records exactly
one newly read screen; the clock counter never decreases. -/
def stepRel (m : Nat) (st st1 : LoopSt) : Prop :=
  st.nClock ≤ st1.nClock ∧
  ((st1.reads = st.reads ∧ st1.screen = st.screen ∧ st1.ctx = st.ctx) ∨
   (∃ scr, st1.reads = st.reads ++ [scr] ∧ st1.screen = scr ∧
     st1.ctx = addToContext st.ctx scr m))

/-! ### Concrete fixtures used by the theorems below -/

/-- An empty screen (all `ScreenState` defaults). -/
def s0F : ScreenState := {}

/-- A model response with the given content. -/
def mkChat (content : String) (tokens : Nat) : Except String ChatResponse :=
  .ok ⟨⟨"assistant", content⟩, tokens⟩

/-- A benign environment whose model always answers the compact
`{"a":"done"}` and whose device always succeeds. -/
def envDone : Env :=
  { screens := fun _ => .ok s0F
    chat := fun _ => mkChat "\x7b\"a\":\"done\"\x7d" 5
    dev := fun _ _ => ⟨true, .tap, "", none, none⟩
    clock := fun n => n }

/-- The same environment with the verbose `{"action":"done"}` answer. -/
def envVerboseDone : Env :=
  { envDone with chat := fun _ => mkChat "\x7b\"action\":\"done\"\x7d" 5 }

/-- A model that always answers prose that fails both parser stages. -/
def envGarbage : Env :=
  { envDone with chat := fun _ => mkChat "let me think about this" 7 }

/-- A model that always requests `back`; the device succeeds on its first
operation and fails afterwards. -/
def envFirstFail : Env :=
  { screens := fun _ => .ok s0F
    chat := fun _ => mkChat "\x7b\"action\":\"back\"\x7d" 5
    dev := fun n _ =>
      if n = 0 then ⟨true, .back, "", none, none⟩
      else ⟨false, .back, "", some "boom", none⟩
    clock := fun n => n }

/-- An environment whose very first screen read raises. -/
def envScreenRaise : Env :=
  { envDone with screens := fun _ => .error "device not connected" }

/-- The one-node UI dump of the compact-encoding test: bounds
`[0,0][100,50]`, `clickable="true"`, `text="X"`, wrapped in the usual
`hierarchy` root element. -/
def dump6 : XmlElem :=
  .mk "hierarchy" [("rotation", "0")]
    (.cons (.mk "node"
      [("text", "X"), ("clickable", "true"), ("bounds", "[0,0][100,50]")] .nil) .nil)

/-- The `ScreenState` `get_screen_state` builds from that dump (activity
detection yields no package here). -/
def screen6 : ScreenState := { elements := parse_ui_xml (some dump6) }

/-- No curly brace occurs in the string. -/
def braceFree (s : String) : Bool :=
  !(s.toList.any fun c => c == lbraceC || c == rbraceC)

/-- A model response in exactly the verbose format the system prompt
requests, with the given thought text. -/
def verboseContent (t : String) : String :=
  "\x7b\"thought\":\"" ++ t ++
    "\",\"action\":\"tap\",\"params\":\x7b\"element_index\":0\x7d,\"confidence\":0.9\x7d"

/-- The environment whose model answers in that verbose format. -/
def envVerboseTap (t : String) : Env :=
  { envDone with chat := fun _ => mkChat (verboseContent t) 5 }

/-- A mid-run loop state whose next device operation is the failing one
of `envFirstFail` (`nDev = 1`). -/
def stW : LoopSt :=
  { screen := s0F, messages := [], steps := [], totalTokens := 0, success := false
    error := none, agState := .planning, ctx := [], trace := [], nChat := 0
    nScreen := 0, nDev := 1, nClock := 0, reads := [] }

/-- A canonical tap request whose parameter keys are the verbose ones. -/
def schemaTap : MobileSchema.MobileActionSchema :=
  { thought := "tap the icon", action := .tap
    params := [("element_index", Json.num ⟨0, 1⟩)], confidence := ⟨19, 20⟩ }

/-- The schema value of the compact-roundtrip counterexample: its
parameter key `d` is already an abbreviated key. -/
def schemaD : MobileSchema.MobileActionSchema :=
  { thought := "go", action := .swipe, params := [("d", Json.str "up")]
    confidence := ⟨1, 1⟩ }

/-- Decode of a full `to_comptext` string: `json.loads` then
`from_comptext` (the composite the round-trip property describes). -/
def comptextDecode (s : String) : Option MobileSchema.MobileActionSchema :=
  match jloads s with
  | some (.obj kvs) => MobileSchema.from_comptext kvs
  | _ => none

/-! ## Claim theorems -/

/-- Claim C6: parsing the one-node dump with bounds `[0,0][100,50]`,
`clickable="true"`, `text="X"` yields exactly one element with center
`(50,25)` — via `UITreeParser.parse` and equally via the device wrapper's
`_parse_ui_xml` — and the compact encoding of that parsed screen by
`MobileAgent._format_screen_compact` (the encoder the sources cite) has
the single element line `0:B:X@50,25`.  (The parser-internal
`UINode.to_comptext` would write `K`, not `B`, for a class-less clickable
node; the cited encoder derives `B` from the clickable flag.) -/
theorem one_element_dump_parse_and_encode :
    (UITreeParser.parse 100 50 (some dump6)).length = 1 ∧
    (UITreeParser.parse 100 50 (some dump6)).map UINode.center = [(50, 25)] ∧
    (parse_ui_xml (some dump6)).map UIElement.center = [(50, 25)] ∧
    formatScreenCompact screen6 = "App:?\nEls:\n0:B:X@50,25" := by
  decide

/-- Claim C7: re-running parse followed by compact encoding on the same
raw dump gives byte-identical output.  The embedded pipeline — filter,
relevance sort (a stable sort by the deterministic key `(-score, y, x)`,
whose result is unique), re-indexing, element cap and renderer — is a
pure function of the parsed document, so the two runs coincide
definitionally; the Python implementation contains no other source of
nondeterminism (no hash iteration, no identity-based tie-breaks). -/
theorem parse_encode_deterministic (doc : Option XmlElem) :
    (parse_ui_dump doc).2 = (parse_ui_dump doc).2 ∧
    (parse_ui_dump doc).1 = (parse_ui_dump doc).1 := ⟨rfl, rfl⟩

/-- Claim C3 (code bug): with the CompText configuration the agent itself
requests compact answers, yet a first response `{"a":"done"}` is *not*
recognized: `execute` checks only the verbose `action` key, records the
step with action `unknown`, dispatches nothing, and ends in failure with
the max-steps error — whereas the verbose `{"action":"done"}` produces
exactly the claimed outcome (success, one step, no device action). -/
theorem compact_done_not_recognized :
    ((execute envDone { max_steps := 1 } "t" []).result.success = false ∧
     (execute envDone { max_steps := 1 } "t" []).result.error =
       some "Max steps reached without completing task" ∧
     (execute envDone { max_steps := 1 } "t" []).result.steps.map (·.action) =
       [Json.str "unknown"] ∧
     (execute envDone { max_steps := 1 } "t" []).trace = []) ∧
    ((execute envVerboseDone { max_steps := 5 } "t" []).result.success = true ∧
     (execute envVerboseDone { max_steps := 5 } "t" []).result.step_count = 1 ∧
     (execute envVerboseDone { max_steps := 5 } "t" []).trace = []) := by
  decide

/-- Claim C2 (counterexample): on the internal-exception path —
here the initial screen read raises — `final_screen` and
`total_duration_ms` are *not* populated: the assignments sit inside the
`try`, so the defaults `None` and `0.0` survive. -/
theorem exception_path_keeps_defaults :
    (execute envScreenRaise {} "t" []).raisedEx = some "device not connected" ∧
    (execute envScreenRaise {} "t" []).result.final_screen = none ∧
    (execute envScreenRaise {} "t" []).result.total_duration_ms = 0 := by
  decide

/-- Claim C4 (counterexample): with `retry_attempts = 1`, the first
action succeeds and the *first-ever* failure occurs at loop index 1; no
retry has been consumed by failures, yet `execute` terminates at once
with state Failed and a populated error, because the code compares the
loop index — not a failure count — against the budget. -/
theorem first_failure_can_terminate_immediately :
    (execute envFirstFail { max_steps := 3, retry_attempts := 1 } "t" []).result.steps.map
        (fun s => s.result.map (fun r => r.success)) = [some true, some false] ∧
    (execute envFirstFail { max_steps := 3, retry_attempts := 1 } "t" []).result.error =
      some "Action failed: boom" ∧
    (execute envFirstFail { max_steps := 3, retry_attempts := 1 } "t" []).finalState =
      .failed ∧
    (execute envFirstFail { max_steps := 3, retry_attempts := 1 } "t" []).result.steps.length
      = 2 := by
  decide

/-- Claim C8 (counterexample): a schema whose parameter dict already uses
the abbreviated key `d` does not round-trip: `to_comptext` leaves `d`
unchanged and `from_comptext` maps it to `direction`, so the decoded
parameters differ from the originals (the action itself survives). -/
theorem comptext_roundtrip_cex :
    (comptextDecode (MobileSchema.to_comptext schemaD)).map
        MobileSchema.MobileActionSchema.params = some [("direction", Json.str "up")] ∧
    ¬ ((comptextDecode (MobileSchema.to_comptext schemaD)).map
        MobileSchema.MobileActionSchema.params = some schemaD.params) := by
  decide

/-- Claim C9 (counterexample): with `context_memory_size = 0` the memory
is *not* bounded by the configured size: Python's `lst[-0:]` slice is the
whole list, so one `_add_to_context` call already exceeds the bound. -/
theorem context_memory_zero_cex :
    (addToContext [] s0F 0).length = 1 ∧ ¬ ((addToContext [] s0F 0).length ≤ 0) := by
  decide

theorem loopIter_stepRel (env : Env) (cfg : AgentConfig) (stepNum : Nat) (st : LoopSt) :
    stepRel cfg.context_memory_size st (loopIter env cfg stepNum st).state := by
  unfold loopIter stepRel
  dsimp only
  repeat' split
  all_goals dsimp only [IterOut.state]
  all_goals
    first
      | exact ⟨by omega, Or.inl ⟨rfl, rfl, rfl⟩⟩
      | exact ⟨by omega, Or.inr ⟨_, rfl, rfl, rfl⟩⟩

/-- `_add_to_context` keeps the memory within a positive bound. -/
theorem addToContext_length_le (mem : List ScreenState) (s : ScreenState) (m : Nat)
    (h : 1 ≤ m) : (addToContext mem s m).length ≤ m := by
  unfold addToContext pySliceLast
  dsimp only
  split_ifs with h1 h2
  · omega
  · simp only [List.length_drop]
    omega
  · omega

/-- `_add_to_context` keeps a suffix of the appended history (the most
recent screens, in insertion order). -/
theorem addToContext_suffix (mem : List ScreenState) (s : ScreenState) (m : Nat)
    (h : 1 ≤ m) : addToContext mem s m <:+ mem ++ [s] := by
  unfold addToContext pySliceLast
  dsimp only
  split_ifs with h1 h2
  · exact absurd h2 (by omega)
  · exact List.drop_suffix _ _
  · exact List.suffix_refl _

/-- Invariant propagation along the whole loop. -/
theorem loop_pres (env : Env) (cfg : AgentConfig) (P : LoopSt → Prop)
    (hP : ∀ stepNum st, P st → P (loopIter env cfg stepNum st).state) :
    ∀ (fuel stepNum : Nat) (st : LoopSt), P st →
      P (loop env cfg fuel stepNum st).state := by
  intro fuel
  induction fuel with
  | zero => intro _ st h; simpa [loop, LoopOut.state] using h
  | succ f ih =>
    intro stepNum st h
    have h1 := hP stepNum st h
    rcases hit : loopIter env cfg stepNum st with st1 | st1 | ⟨st1, e⟩
    · rw [hit] at h1
      simp only [IterOut.state] at h1
      simp only [loop, hit]
      exact ih (stepNum + 1) st1 h1
    · rw [hit] at h1
      simp only [IterOut.state] at h1
      simp only [loop, hit, LoopOut.state]
      exact h1
    · rw [hit] at h1
      simp only [IterOut.state] at h1
      simp only [loop, hit, LoopOut.state]
      exact h1

/-- Claim C1: for every task (and every collaborator behaviour, under a
monotone wall clock), `execute` returns — exceptions from collaborators
are caught, the embedding is total — an `AgentResult` whose `step_count`
equals `len(steps)` and whose `total_duration_ms` is nonnegative, on every
exit path including the internal-exception one (where it is the default
`0.0`). -/
theorem execute_stepcount_duration (env : Env) (cfg : AgentConfig) (task : String)
    (ctx0 : List ScreenState) (hm : Monotone env.clock) :
    (execute env cfg task ctx0).result.step_count =
      (execute env cfg task ctx0).result.steps.length ∧
    0 ≤ (execute env cfg task ctx0).result.total_duration_ms := by
  refine ⟨rfl, ?_⟩
  unfold execute
  dsimp only
  split
  · simp
  · split
    · dsimp only
      exact mul_nonneg (sub_nonneg.mpr (hm (Nat.zero_le _))) (by norm_num)
    · simp

/-- Claim C1 witness: a concrete benign run under the identity clock. -/
theorem execute_stepcount_duration_witness :
    (execute envGarbage {} "t" []).result.step_count =
      (execute envGarbage {} "t" []).result.steps.length ∧
    0 ≤ (execute envGarbage {} "t" []).result.total_duration_ms :=
  execute_stepcount_duration envGarbage {} "t" []
    (by
      intro a b h
      simp only [envGarbage, envDone]
      exact_mod_cast h)

/-- Each iteration preserves "the last successfully read screen is the
loop's current screen" and never decreases the clock counter. -/
theorem loopIter_reads_inv (env : Env) (cfg : AgentConfig) (stepNum : Nat)
    (st : LoopSt) (h : st.reads.getLast? = some st.screen ∧ 1 ≤ st.nClock) :
    (loopIter env cfg stepNum st).state.reads.getLast? =
      some (loopIter env cfg stepNum st).state.screen ∧
    1 ≤ (loopIter env cfg stepNum st).state.nClock := by
  obtain ⟨hclk, hcase⟩ := loopIter_stepRel env cfg stepNum st
  rcases hcase with ⟨hr, hs, _⟩ | ⟨scr, hr, hs, _⟩
  · rw [hr, hs]
    exact ⟨h.1, le_trans h.2 hclk⟩
  · rw [hr, hs]
    exact ⟨List.getLast?_concat _, le_trans h.2 hclk⟩

/-- Claim C2 (amended): on every exit path that does not go through the
exception handler — completion, step-budget exhaustion, retry-budget
failure — `final_screen` is populated with the last successfully read
`ScreenState` and `total_duration_ms` with the elapsed wall time
(final minus initial `time.time()` reading, times 1000; positive under a
strictly increasing clock); on the internal-exception path both keep
their defaults `None`/`0.0` (see the counterexample theorem). -/
theorem execute_populates_unless_raised (env : Env) (cfg : AgentConfig)
    (task : String) (ctx0 : List ScreenState)
    (hs : StrictMono env.clock)
    (hn : (execute env cfg task ctx0).raisedEx = none) :
    (execute env cfg task ctx0).result.final_screen =
        (execute env cfg task ctx0).reads.getLast? ∧
    ((execute env cfg task ctx0).result.final_screen).isSome = true ∧
    (execute env cfg task ctx0).result.total_duration_ms =
      ((execute env cfg task ctx0).endTime -
        (execute env cfg task ctx0).startTime) * 1000 ∧
    0 < (execute env cfg task ctx0).result.total_duration_ms := by
  unfold execute at hn ⊢
  rcases hscr : env.screens 0 with e | s0
  · rw [hscr] at hn
    exact absurd hn (by simp)
  · rw [hscr] at hn
    dsimp only at hn ⊢
    rcases hloop : loop env cfg cfg.max_steps 0 (initState cfg task ctx0 s0)
      with st | ⟨st, e⟩
    · have hP : st.reads.getLast? = some st.screen ∧ 1 ≤ st.nClock := by
        have hinv := loop_pres env cfg
          (fun s => s.reads.getLast? = some s.screen ∧ 1 ≤ s.nClock)
          (fun sn s hh => loopIter_reads_inv env cfg sn s hh)
          cfg.max_steps 0 (initState cfg task ctx0 s0)
          (by simp [initState])
        rw [hloop] at hinv
        simpa [LoopOut.state] using hinv
      dsimp only
      refine ⟨hP.1.symm, rfl, rfl, ?_⟩
      have h0 : env.clock 0 < env.clock st.nClock := hs (by omega)
      have h1 : (0 : Int) < env.clock st.nClock - env.clock 0 := by omega
      positivity
    · rw [hloop] at hn
      exact absurd hn (by simp)

/-- Claim C2 witness: a concrete zero-step run under the identity clock
(no exception is raised, so the fields are populated). -/
theorem execute_populates_unless_raised_witness :
    ((execute envGarbage { max_steps := 1 } "t" []).result.final_screen).isSome = true :=
  (execute_populates_unless_raised envGarbage { max_steps := 1 } "t" []
    (by
      intro a b h
      simp only [envGarbage, envDone]
      exact_mod_cast h)
    (by decide)).2.1

/-- Claim C9 (amended): with a positive `context_memory_size`, every
`_add_to_context` call leaves at most that many screens and retains a
suffix of the appended history (the most recent entries in insertion
order); the bound is maintained by every loop iteration and holds for the
agent's memory when `execute` returns.  (`context_memory_size = 0`
violates the bound — see the counterexample theorem.) -/
theorem context_memory_bounded :
    (∀ (mem : List ScreenState) (s : ScreenState) (m : Nat), 1 ≤ m →
      (addToContext mem s m).length ≤ m ∧ addToContext mem s m <:+ mem ++ [s]) ∧
    (∀ (env : Env) (cfg : AgentConfig) (stepNum : Nat) (st : LoopSt),
      1 ≤ cfg.context_memory_size → st.ctx.length ≤ cfg.context_memory_size →
      (loopIter env cfg stepNum st).state.ctx.length ≤ cfg.context_memory_size) ∧
    (∀ (env : Env) (cfg : AgentConfig) (task : String) (ctx0 : List ScreenState),
      1 ≤ cfg.context_memory_size → ctx0.length ≤ cfg.context_memory_size →
      (execute env cfg task ctx0).ctx.length ≤ cfg.context_memory_size) := by
  have hiter : ∀ (env : Env) (cfg : AgentConfig) (stepNum : Nat) (st : LoopSt),
      1 ≤ cfg.context_memory_size → st.ctx.length ≤ cfg.context_memory_size →
      (loopIter env cfg stepNum st).state.ctx.length ≤ cfg.context_memory_size := by
    intro env cfg stepNum st hm hst
    obtain ⟨_, hcase⟩ := loopIter_stepRel env cfg stepNum st
    rcases hcase with ⟨_, _, hc⟩ | ⟨scr, _, _, hc⟩
    · rw [hc]; exact hst
    · rw [hc]; exact addToContext_length_le _ _ _ hm
  refine ⟨fun mem s m h => ⟨addToContext_length_le mem s m h, addToContext_suffix mem s m h⟩,
    hiter, ?_⟩
  intro env cfg task ctx0 hm hc0
  unfold execute
  rcases hscr : env.screens 0 with e | s0
  · exact hc0
  · dsimp only
    rcases hloop : loop env cfg cfg.max_steps 0 (initState cfg task ctx0 s0)
      with st | ⟨st, e⟩
    · have hinv := loop_pres env cfg
        (fun s => s.ctx.length ≤ cfg.context_memory_size)
        (fun sn s hh => hiter env cfg sn s hm hh)
        cfg.max_steps 0 (initState cfg task ctx0 s0)
        (by simpa [initState] using addToContext_length_le ctx0 s0 _ hm)
      rw [hloop] at hinv
      simpa [LoopOut.state] using hinv
    · have hinv := loop_pres env cfg
        (fun s => s.ctx.length ≤ cfg.context_memory_size)
        (fun sn s hh => hiter env cfg sn s hm hh)
        cfg.max_steps 0 (initState cfg task ctx0 s0)
        (by simpa [initState] using addToContext_length_le ctx0 s0 _ hm)
      rw [hloop] at hinv
      simpa [LoopOut.state] using hinv

/-- Claim C9 witness: per-call bound at size 1, iteration preservation,
and a whole concrete run at the default size. -/
theorem context_memory_bounded_witness :
    (addToContext [] s0F 1).length ≤ 1 ∧
    (execute envGarbage {} "t" []).ctx.length ≤ 5 :=
  ⟨(context_memory_bounded.1 [] s0F 1 (by decide)).1,
   context_memory_bounded.2.2 envGarbage {} "t" [] (by decide) (by decide)⟩

/-- An iteration whose model response defeats both parser stages only
advances the clock/call counters and token total: no step, no device
action, no message append (`continue`). -/
theorem loopIter_parse_fail (env : Env) (cfg : AgentConfig) (stepNum : Nat)
    (st : LoopSt) (r : ChatResponse)
    (hch : env.chat st.nChat = .ok r)
    (hp : parseAction r.message.content = none) :
    loopIter env cfg stepNum st = .cont { st with
      agState := .planning
      nClock := st.nClock + 1
      nChat := st.nChat + 1
      totalTokens := st.totalTokens + r.total_tokens } := by
  unfold loopIter
  dsimp only
  rw [hch]
  dsimp only
  rw [hp]

/-- When every model response defeats both parser stages, the whole loop
just burns its step budget: it ends normally with no steps, no device
trace, no success, no error, in Planning state, after exactly `fuel`
model calls. -/
theorem loop_all_parse_fail (env : Env) (cfg : AgentConfig)
    (hch : ∀ k, ∃ r, env.chat k = .ok r ∧ parseAction r.message.content = none) :
    ∀ (fuel stepNum : Nat) (st : LoopSt), ∃ st',
      loop env cfg fuel stepNum st = .normal st' ∧
      st'.steps = st.steps ∧ st'.trace = st.trace ∧ st'.success = st.success ∧
      st'.error = st.error ∧
      st'.agState = (if fuel = 0 then st.agState else .planning) ∧
      st'.nChat = st.nChat + fuel := by
  intro fuel
  induction fuel with
  | zero =>
    intro stepNum st
    exact ⟨st, rfl, rfl, rfl, rfl, rfl, rfl, rfl⟩
  | succ f ih =>
    intro stepNum st
    obtain ⟨r, hr, hp⟩ := hch st.nChat
    have e0 := loopIter_parse_fail env cfg stepNum st r hr hp
    obtain ⟨st', hl, h1, h2, h3, h4, h5, h6⟩ := ih (stepNum + 1)
      { st with
        agState := .planning
        nClock := st.nClock + 1
        nChat := st.nChat + 1
        totalTokens := st.totalTokens + r.total_tokens }
    refine ⟨st', ?_, h1, h2, h3, h4, ?_, ?_⟩
    · simp only [loop, e0]
      exact hl
    · rw [h5]
      split <;> rfl
    · rw [h6]
      dsimp only
      omega

/-- Claim C5: with `max_steps = 3` and a model whose every response fails
both the strict JSON parse and the lenient fallback, `execute` makes
exactly 3 model calls (so at most 3 planning attempts), dispatches no
device action, raises nothing, and returns failure with the
"Max steps reached without completing task" error. -/
theorem max_steps_unparseable (env : Env) (cfg : AgentConfig) (task : String)
    (ctx0 : List ScreenState) (s0 : ScreenState)
    (hmax : cfg.max_steps = 3)
    (hs0 : env.screens 0 = .ok s0)
    (hch : ∀ k, ∃ r, env.chat k = .ok r ∧ parseAction r.message.content = none) :
    (execute env cfg task ctx0).chatCalls = 3 ∧
    (execute env cfg task ctx0).trace = [] ∧
    (execute env cfg task ctx0).raisedEx = none ∧
    (execute env cfg task ctx0).result.success = false ∧
    (execute env cfg task ctx0).result.error =
      some "Max steps reached without completing task" := by
  obtain ⟨st', hl, h1, h2, h3, h4, h5, h6⟩ :=
    loop_all_parse_fail env cfg hch cfg.max_steps 0 (initState cfg task ctx0 s0)
  unfold execute
  rw [hs0]
  dsimp only
  rw [hl]
  dsimp only
  have hag : st'.agState = .planning := by
    rw [h5, hmax]
    rfl
  have hsc : st'.success = false := by
    rw [h3]
    rfl
  simp [hsc, hag, h2, h6, hmax, initState]

/-- Claim C5 witness: the concrete always-unparseable model. -/
theorem max_steps_unparseable_witness :
    (execute envGarbage { max_steps := 3 } "t" []).chatCalls = 3 :=
  (max_steps_unparseable envGarbage { max_steps := 3 } "t" [] s0F rfl rfl
    (fun _ => ⟨⟨⟨"assistant", "let me think about this"⟩, 7⟩, rfl, by decide⟩)).1

/-- Claim C4 (amended): the failure check compares the 0-based loop index
with `retry_attempts`, not a count of consumed retries.  Whenever a
dispatched action's `ActionResult` has `success = False`, the loop
continues exactly when `step_num < retry_attempts`; as soon as the index
reaches the budget, any failure — even a first-ever one — sets state
Failed with a populated `Action failed:` error and stops. -/
theorem retry_budget_is_positional
    (env : Env) (cfg : AgentConfig) (stepNum : Nat) (st : LoopSt)
    (r : ChatResponse) (ad : Json) (a : String) (op : DeviceOp) (scr : ScreenState)
    (hch : env.chat st.nChat = .ok r)
    (hp : parseAction r.message.content = some ad)
    (ht : jsonTruthy ad = true)
    (hnd : ¬ jObjGet ad "action" = some (Json.str "done"))
    (hla : loweredAction ad = .ok a)
    (hbody : execActionBody a ((jObjGet ad "params").getD (.obj [])) st.screen
      = .ok (.inl op))
    (hfail : (env.dev st.nDev op).success = false)
    (hscr : env.screens st.nScreen = .ok scr) :
    (stepNum < cfg.retry_attempts → ∃ st', loopIter env cfg stepNum st = .cont st') ∧
    (cfg.retry_attempts ≤ stepNum → ∃ st',
      loopIter env cfg stepNum st = .halt st' ∧ st'.agState = .failed ∧
      st'.error = some ("Action failed: " ++ optStr (env.dev st.nDev op).error)) := by
  unfold loopIter
  dsimp only
  rw [hch]
  dsimp only
  rw [hp]
  dsimp only
  rw [if_neg (by simp [ht])]
  rw [if_neg hnd]
  rw [hla]
  dsimp only
  rw [hbody]
  dsimp only
  rw [hscr]
  dsimp only
  rw [if_pos (by simp [hfail])]
  constructor
  · intro hlt
    exact ⟨_, by rw [if_pos hlt]⟩
  · intro hge
    exact ⟨_, by rw [if_neg (Nat.not_lt.mpr hge)], rfl, rfl⟩

/-- The key compression is undone by decompression whenever the original
key is not itself one of the abbreviated keys. -/
theorem decompress_compress_key (k : String)
    (h : ¬ (k = "ei" ∨ k = "txt" ∨ k = "pkg" ∨ k = "d" ∨ k = "s")) :
    MobileSchema.decompressKey (MobileSchema.compressKey k) = k := by
  push_neg at h
  obtain ⟨h1, h2, h3, h4, h5⟩ := h
  by_cases e1 : k = "element_index"
  · subst e1; decide
  by_cases e2 : k = "text"
  · subst e2; decide
  by_cases e3 : k = "package"
  · subst e3; decide
  by_cases e4 : k = "direction"
  · subst e4; decide
  by_cases e5 : k = "seconds"
  · subst e5; decide
  have hc : MobileSchema.compressKey k = k := by
    unfold MobileSchema.compressKey
    rw [if_neg e1, if_neg e2, if_neg e3, if_neg e4, if_neg e5]
  rw [hc]
  unfold MobileSchema.decompressKey
  rw [if_neg h1, if_neg h2, if_neg h3, if_neg h4, if_neg h5]

/-- Compression is injective on keys that are not abbreviated keys
(it has the decompression as a left inverse there). -/
theorem compressKey_injOn (k1 k2 : String)
    (g1 : ¬ (k1 = "ei" ∨ k1 = "txt" ∨ k1 = "pkg" ∨ k1 = "d" ∨ k1 = "s"))
    (g2 : ¬ (k2 = "ei" ∨ k2 = "txt" ∨ k2 = "pkg" ∨ k2 = "d" ∨ k2 = "s"))
    (he : MobileSchema.compressKey k1 = MobileSchema.compressKey k2) : k1 = k2 := by
  rw [← decompress_compress_key k1 g1, ← decompress_compress_key k2 g2, he]

theorem objGet_append_left_none (l1 l2 : List (String × Json)) (k : String)
    (h : objGet l1 k = none) : objGet (l1 ++ l2) k = objGet l2 k := by
  induction l1 with
  | nil => rfl
  | cons kv rest ih =>
    obtain ⟨k', v'⟩ := kv
    by_cases hk : k' = k
    · simp [objGet, hk] at h
    · simp only [objGet, hk, List.cons_append, if_false] at h ⊢
      exact ih h

theorem objInsert_fresh (l : List (String × Json)) (k : String) (v : Json)
    (h : objGet l k = none) : objInsert l k v = l ++ [(k, v)] := by
  induction l with
  | nil => rfl
  | cons kv rest ih =>
    obtain ⟨k', v'⟩ := kv
    by_cases hk : k' = k
    · simp [objGet, hk] at h
    · simp only [objGet, hk, if_false] at h
      simp only [objInsert, hk, if_false, List.cons_append]
      rw [ih h]

/-- `{f(k): v for k, v in ps}` equals the key-mapped list when the mapped
keys are fresh for the accumulator and mutually distinct. -/
theorem foldl_objInsert_map (f : String → String) :
    ∀ (ps : List (String × Json)) (acc : List (String × Json)),
      (∀ kv ∈ ps, objGet acc (f kv.1) = none) →
      (ps.map (fun kv => f kv.1)).Nodup →
      ps.foldl (fun a kv => objInsert a (f kv.1) kv.2) acc =
        acc ++ ps.map (fun kv => (f kv.1, kv.2)) := by
  intro ps
  induction ps with
  | nil => intro acc _ _; simp
  | cons kv rest ih =>
    intro acc hfresh hnd
    obtain ⟨k, v⟩ := kv
    simp only [List.map_cons, List.nodup_cons] at hnd
    have hacc : objGet acc (f k) = none := hfresh (k, v) (List.mem_cons_self _ _)
    simp only [List.foldl_cons]
    rw [objInsert_fresh acc (f k) v hacc]
    rw [ih (acc ++ [(f k, v)]) ?fresh hnd.2]
    · simp
    · intro kv' hkv'
      rw [objGet_append_left_none _ _ _ (hfresh kv' (List.mem_cons_of_mem _ hkv'))]
      have hne : f kv'.1 ≠ f k := by
        intro hcontra
        exact hnd.1 (by
          rw [← hcontra]
          exact List.mem_map_of_mem (fun kv => f kv.1) hkv')
      simp [objGet, Ne.symm hne]

/-- Round trip of the parameter dict through compression and
decompression, for parameter dicts that use no abbreviated key. -/
theorem compress_decompress_params (ps : List (String × Json))
    (hk : ∀ kv ∈ ps, ¬ (kv.1 = "ei" ∨ kv.1 = "txt" ∨ kv.1 = "pkg" ∨
      kv.1 = "d" ∨ kv.1 = "s"))
    (hnd : (ps.map Prod.fst).Nodup) :
    MobileSchema.decompressParams (MobileSchema.compressParams ps) = ps := by
  have hnd1 : (ps.map (fun kv => MobileSchema.compressKey kv.1)).Nodup := by
    have hmm : ps.map (fun kv => MobileSchema.compressKey kv.1) =
        (ps.map Prod.fst).map MobileSchema.compressKey := by
      rw [List.map_map]
      rfl
    rw [hmm]
    refine List.Nodup.map_on ?_ hnd
    intro x hx y hy hxy
    obtain ⟨kvx, hkvx, rfl⟩ := List.mem_map.mp hx
    obtain ⟨kvy, hkvy, rfl⟩ := List.mem_map.mp hy
    exact compressKey_injOn _ _ (hk kvx hkvx) (hk kvy hkvy) hxy
  have h1 : MobileSchema.compressParams ps =
      ps.map (fun kv => (MobileSchema.compressKey kv.1, kv.2)) := by
    unfold MobileSchema.compressParams
    rw [foldl_objInsert_map _ ps [] (fun _ _ => rfl) hnd1]
    simp
  have hptwise : ∀ kv ∈ ps,
      MobileSchema.decompressKey (MobileSchema.compressKey kv.1) = kv.1 :=
    fun kv hkv => decompress_compress_key kv.1 (hk kv hkv)
  have hnd2 : ((ps.map (fun kv => (MobileSchema.compressKey kv.1, kv.2))).map
      (fun kv => MobileSchema.decompressKey kv.1)).Nodup := by
    have hmm : (ps.map (fun kv => (MobileSchema.compressKey kv.1, kv.2))).map
        (fun kv => MobileSchema.decompressKey kv.1) = ps.map Prod.fst := by
      rw [List.map_map]
      refine List.map_congr_left ?_
      intro kv hkv
      exact hptwise kv hkv
    rw [hmm]
    exact hnd
  have h2 : MobileSchema.decompressParams
      (ps.map (fun kv => (MobileSchema.compressKey kv.1, kv.2))) =
      (ps.map (fun kv => (MobileSchema.compressKey kv.1, kv.2))).map
        (fun kv => (MobileSchema.decompressKey kv.1, kv.2)) := by
    unfold MobileSchema.decompressParams
    rw [foldl_objInsert_map _ _ [] (fun _ _ => rfl) hnd2]
    simp
  rw [h1, h2, List.map_map]
  have hpt2 : ∀ kv ∈ ps,
      ((fun kv => (MobileSchema.decompressKey kv.1, kv.2)) ∘
        (fun kv => (MobileSchema.compressKey kv.1, kv.2))) kv = kv := by
    intro kv hkv
    simp only [Function.comp_apply]
    rw [hptwise kv hkv]
  rw [List.map_congr_left hpt2]
  simp

/-- Claim C8 (amended): encoding to the compact schema and decoding back
preserves the action and every parameter key/value, *provided* no
parameter key is already one of the abbreviated keys `ei`, `txt`, `pkg`,
`d`, `s` (otherwise decoding expands it — see the counterexample).  The
thought keeps only its first 50 characters and the confidence is rounded;
the claim constrains only action and parameters. -/
theorem comptext_roundtrip_safe_keys (s : MobileSchema.MobileActionSchema)
    (hk : ∀ kv ∈ s.params, ¬ (kv.1 = "ei" ∨ kv.1 = "txt" ∨ kv.1 = "pkg" ∨
      kv.1 = "d" ∨ kv.1 = "s"))
    (hnd : (s.params.map Prod.fst).Nodup) :
    (MobileSchema.from_comptext (MobileSchema.to_comptext_obj s)).map
        MobileSchema.MobileActionSchema.action = some s.action ∧
    (MobileSchema.from_comptext (MobileSchema.to_comptext_obj s)).map
        MobileSchema.MobileActionSchema.params = some s.params := by
  have hofv : MobileSchema.ActionType.ofValue s.action.value = some s.action := by
    cases s.action <;> rfl
  unfold MobileSchema.from_comptext MobileSchema.to_comptext_obj
  simp [objGet, hofv, compress_decompress_params s.params hk hnd]

/-- Claim C4 witness: a concrete failing iteration below the budget
continues; at budget zero the same failing iteration halts with the
populated error. -/
theorem retry_budget_is_positional_witness :
    (∃ st', loopIter envFirstFail {} 0 stW = .cont st') ∧
    (∃ st', loopIter envFirstFail { retry_attempts := 0 } 0 stW = .halt st' ∧
      st'.agState = .failed ∧
      st'.error = some ("Action failed: " ++
        optStr (envFirstFail.dev stW.nDev DeviceOp.back).error)) :=
  ⟨(retry_budget_is_positional envFirstFail {} 0 stW
      ⟨⟨"assistant", "\x7b\"action\":\"back\"\x7d"⟩, 5⟩
      (Json.obj [("action", Json.str "back")]) "back" .back s0F
      rfl (by decide) (by decide) (by decide) rfl rfl (by decide)
      rfl).1 (by decide),
   (retry_budget_is_positional envFirstFail { retry_attempts := 0 } 0 stW
      ⟨⟨"assistant", "\x7b\"action\":\"back\"\x7d"⟩, 5⟩
      (Json.obj [("action", Json.str "back")]) "back" .back s0F
      rfl (by decide) (by decide) (by decide) rfl rfl (by decide)
      rfl).2 (by decide)⟩

/-- Claim C8 witness: a canonical tap request round-trips. -/
theorem comptext_roundtrip_safe_keys_witness :
    (MobileSchema.from_comptext (MobileSchema.to_comptext_obj schemaTap)).map
        MobileSchema.MobileActionSchema.params = some schemaTap.params :=
  (comptext_roundtrip_safe_keys schemaTap (by decide) (by decide)).2

/-- `grabFlat` walks over a brace-free prefix, accumulating it. -/
theorem grabFlat_append (l : List Char)
    (h : ∀ c ∈ l, c ≠ lbraceC ∧ c ≠ rbraceC) :
    ∀ (rest acc : List Char),
      grabFlat (l ++ rest) acc = grabFlat rest (l.reverse ++ acc) := by
  induction l with
  | nil => intro rest acc; simp
  | cons c cs ih =>
    intro rest acc
    have hc := h c (List.mem_cons_self _ _)
    simp only [List.cons_append, grabFlat, if_neg hc.2, if_neg hc.1, List.append_eq]
    rw [ih (fun d hd => h d (List.mem_cons_of_mem _ hd)) rest (c :: acc)]
    simp

/-- `braceSearch` skips a brace-free prefix. -/
theorem braceSearch_append (l : List Char)
    (h : ∀ c ∈ l, c ≠ lbraceC ∧ c ≠ rbraceC) :
    ∀ rest : List Char, braceSearch (l ++ rest) = braceSearch rest := by
  induction l with
  | nil => intro rest; rfl
  | cons c cs ih =>
    intro rest
    have hc := h c (List.mem_cons_self _ _)
    simp only [List.cons_append, braceSearch, if_neg hc.1, List.append_eq]
    exact ih (fun d hd => h d (List.mem_cons_of_mem _ hd)) rest

/-- A failed innermost-match attempt at a `{` falls through to the scan of
the remainder. -/
theorem braceSearch_cons_lbrace_none (rest : List Char)
    (h : grabFlat rest [] = none) :
    braceSearch (lbraceC :: rest) = braceSearch rest := by
  simp [braceSearch, h]

/-- The strict stage of `_parse_action`, on the verbose response format
the system prompt requests, matches only the innermost brace pair — the
`params` sub-object — for every brace-free thought text. -/
theorem parseAction_verbose (t : String) (hb : braceFree t = true) :
    parseAction (verboseContent t) =
      some (Json.obj [("element_index", Json.num ⟨0, 1⟩)]) := by
  have hbl : ∀ c ∈ t.toList, c ≠ lbraceC ∧ c ≠ rbraceC := by
    intro c hc
    simp only [braceFree, Bool.not_eq_true', List.any_eq_false] at hb
    have h2 := hb c hc
    simp only [Bool.or_eq_true, beq_iff_eq, not_or] at h2
    exact h2
  have hfr1 : ∀ c ∈ ("\"thought\":\"" : String).toList,
      c ≠ lbraceC ∧ c ≠ rbraceC := by decide
  have hfr2 : ∀ c ∈ ("\",\"action\":\"tap\",\"params\":" : String).toList,
      c ≠ lbraceC ∧ c ≠ rbraceC := by decide
  have hdata : (verboseContent t).toList =
      lbraceC :: (("\"thought\":\"" : String).toList ++ (t.toList ++
        (("\",\"action\":\"tap\",\"params\":" : String).toList ++
          (lbraceC ::
            ("\"element_index\":0\x7d,\"confidence\":0.9\x7d" : String).toList)))) := by
    have hA : ("\x7b\"thought\":\"" : String).toList =
        lbraceC :: ("\"thought\":\"" : String).toList := by decide
    have hB : ("\",\"action\":\"tap\",\"params\":\x7b\"element_index\":0\x7d,\"confidence\":0.9\x7d" : String).toList =
        ("\",\"action\":\"tap\",\"params\":" : String).toList ++
          (lbraceC ::
            ("\"element_index\":0\x7d,\"confidence\":0.9\x7d" : String).toList) := by
      decide
    show (("\x7b\"thought\":\"" : String) ++ t ++
        ("\",\"action\":\"tap\",\"params\":\x7b\"element_index\":0\x7d,\"confidence\":0.9\x7d" : String)).toList = _
    simp only [String.toList] at hA hB ⊢
    simp [String.data_append, hA, hB]
  have e1 : grabFlat (("\"thought\":\"" : String).toList ++ (t.toList ++
      (("\",\"action\":\"tap\",\"params\":" : String).toList ++
        (lbraceC ::
          ("\"element_index\":0\x7d,\"confidence\":0.9\x7d" : String).toList)))) [] = none := by
    rw [grabFlat_append _ hfr1, grabFlat_append _ hbl, grabFlat_append _ hfr2]
    rfl
  have e2 : braceSearch (("\"thought\":\"" : String).toList ++ (t.toList ++
      (("\",\"action\":\"tap\",\"params\":" : String).toList ++
        (lbraceC ::
          ("\"element_index\":0\x7d,\"confidence\":0.9\x7d" : String).toList)))) =
      some ("\x7b\"element_index\":0\x7d" : String).toList := by
    rw [braceSearch_append _ hfr1, braceSearch_append _ hbl, braceSearch_append _ hfr2]
    decide
  have hsearch : braceSearch ((verboseContent t).toList) =
      some ("\x7b\"element_index\":0\x7d" : String).toList := by
    rw [hdata, braceSearch_cons_lbrace_none _ e1]
    exact e2
  unfold parseAction
  rw [hsearch]
  dsimp only
  rw [show jloads (String.mk (("\x7b\"element_index\":0\x7d" : String).toList)) =
      some (Json.obj [("element_index", Json.num ⟨0, 1⟩)]) from by decide]

/-- An iteration whose decoded action data is the bare `params` sub-object
`{"element_index": 0}`: the step is recorded with action `unknown`, the
unknown-action branch produces a failed `ActionResult` without touching
the device, and (below the retry budget) the loop continues. -/
theorem loopIter_unknown_params (env : Env) (cfg : AgentConfig) (stepNum : Nat)
    (st : LoopSt) (r : ChatResponse) (scr : ScreenState)
    (hch : env.chat st.nChat = .ok r)
    (hp : parseAction r.message.content =
      some (Json.obj [("element_index", Json.num ⟨0, 1⟩)]))
    (hscr : env.screens st.nScreen = .ok scr)
    (hretry : stepNum < cfg.retry_attempts) :
    ∃ st', loopIter env cfg stepNum st = .cont st' ∧
      st'.steps.map AgentStep.action =
        st.steps.map AgentStep.action ++ [Json.str "unknown"] ∧
      st'.steps.map (fun s => s.result) = st.steps.map (fun s => s.result) ++
        [some ⟨false, .tap, "", some "Unknown action: ", none⟩] ∧
      st'.trace = st.trace ∧ st'.success = st.success ∧ st'.error = st.error ∧
      st'.agState = .verifying := by
  unfold loopIter
  dsimp only
  rw [hch]
  dsimp only
  rw [hp]
  dsimp only
  rw [if_neg (by decide)]
  rw [if_neg (by decide)]
  rw [show loweredAction (Json.obj [("element_index", Json.num ⟨0, 1⟩)]) =
    Except.ok "" from rfl]
  dsimp only
  rw [show execActionBody ""
      ((jObjGet (Json.obj [("element_index", Json.num ⟨0, 1⟩)]) "params").getD
        (Json.obj [])) st.screen =
    Except.ok (Sum.inr ⟨false, ActionType.tap, "", some "Unknown action: ", none⟩)
    from rfl]
  dsimp only
  rw [hscr]
  dsimp only
  rw [if_pos (by decide)]
  rw [if_pos hretry]
  refine ⟨_, rfl, ?_, ?_, rfl, rfl, rfl, rfl⟩
  · simp
    decide
  · simp

/-- Claim C10: for every brace-free thought text, a model response in
exactly the verbose JSON format the system prompt requests is decoded by
the strict stage of `_parse_action` to the innermost brace pair — the
`params` sub-object, which has no `action` key.  The run then records the
step with action `unknown`, the dispatch takes the unknown-action branch
yielding `ActionResult{success: false}` without any device operation, and
the requested tap never happens. -/
theorem nested_params_object_extracted (t : String) (hb : braceFree t = true) :
    parseAction (verboseContent t) =
      some (Json.obj [("element_index", Json.num ⟨0, 1⟩)]) ∧
    (execute (envVerboseTap t) { max_steps := 1 } "task" []).result.steps.map
      AgentStep.action = [Json.str "unknown"] ∧
    (execute (envVerboseTap t) { max_steps := 1 } "task" []).result.steps.map
      (fun s => s.result) =
        [some ⟨false, .tap, "", some "Unknown action: ", none⟩] ∧
    (execute (envVerboseTap t) { max_steps := 1 } "task" []).trace = [] ∧
    (execute (envVerboseTap t) { max_steps := 1 } "task" []).result.success = false := by
  have hp := parseAction_verbose t hb
  obtain ⟨st', hiter, hmapa, hmapr, htr, hsu, herr, hag⟩ :=
    loopIter_unknown_params (envVerboseTap t) { max_steps := 1 } 0
      (initState { max_steps := 1 } "task" [] s0F)
      ⟨⟨"assistant", verboseContent t⟩, 5⟩ s0F rfl hp rfl (by decide)
  refine ⟨hp, ?_, ?_, ?_, ?_⟩ <;>
    · unfold execute
      rw [show (envVerboseTap t).screens 0 = Except.ok s0F from rfl]
      dsimp only
      simp only [loop, hiter]
      simp [hmapa, hmapr, htr, hsu, herr, initState]

/-- Claim C10 witness: a concrete thought text. -/
theorem nested_params_object_extracted_witness :
    parseAction (verboseContent "Tap the first button") =
      some (Json.obj [("element_index", Json.num ⟨0, 1⟩)]) :=
  (nested_params_object_extracted "Tap the first button" (by decide)).1

end CompTextMcp
